import Mathlib

/-!
Shallow embedding of the ETABS Model Generator core
(`modelgenerator/structure.py`, `modelgenerator/frame.py`, `update.py`).

Coordinates are rationals (the source uses Python floats, exercised here on
exact inputs).  The external ETABS "model sink" (`SapModel`) is modelled by an
explicit `SapState` record mirroring the API calls the source issues; Python
dictionaries become association lists; Python exceptions become `Except`
values.  All definitions are executable.
-/

namespace ModelGen

/-- Planar point, the projection used by `Structure.delete_frames`. -/
abbrev P2 := ℚ × ℚ

/-- Spatial point `(x, y, z)` as used in `Frame.end_coords`. -/
abbrev P3 := ℚ × ℚ × ℚ

def px (p : P3) : ℚ := p.1
def py (p : P3) : ℚ := p.2.1
def pz (p : P3) : ℚ := p.2.2

/-- Release pattern `II` for a pinned member, from `Frame.set_releases`. -/
def pinnedII : List Bool := [false, false, false, true, true, true]

/-- Release pattern `JJ` for a pinned member, from `Frame.set_releases`. -/
def pinnedJJ : List Bool := [false, false, false, false, true, true]

/-- Release pattern (both ends) for a non-pinned member, from `Frame.set_releases`. -/
def fixedRel : List Bool := [false, false, false, false, false, false]

/-- Embedding of the Python `Frame` object (`frame.py`).  `sect` stands for the
`section` attribute (a Lean keyword). -/
structure Frame where
  frame_type : String
  story : String
  sect : String
  end_coords : P3 × P3
  unique_name : Nat := 0
  deleted : Bool := false
  is_lateral : Bool := false
  frame_direction : Option String := none
  deriving Repr, DecidableEq

/-- State of the external ETABS model ("model sink"), recording the effect of
the API calls the source issues.  Property maps are association lists where
the most recent assignment is at the head. -/
structure SapState where
  next_uid : Nat := 1
  created : List Nat := []
  coords : List (Nat × (P3 × P3)) := []
  sections : List (Nat × String) := []
  releases : List (Nat × (List Bool × List Bool)) := []
  angles : List (Nat × ℚ) := []
  removed : List Nat := []
  rez_set : List Nat := []
  cardinal_pts : List (Nat × Nat) := []
  next_wall_uid : Nat := 1
  wall_created : List Nat := []
  wall_sections : List (Nat × String) := []
  piers : List (Nat × String) := []
  deriving Repr, DecidableEq

/-- Lookup in an association list (first, i.e. most recent, entry wins). -/
def alookup {α : Type} (l : List (Nat × α)) (k : Nat) : Option α :=
  (l.find? (fun kv => kv.1 == k)).map (fun kv => kv.2)

/-- `SapModel.FrameObj.AddByCoord`: returns the assigned unique name. -/
def SapState.addFrameByCoord (s : SapState) (p0 p1 : P3) (sect : String) :
    Nat × SapState :=
  (s.next_uid,
   { s with
      next_uid := s.next_uid + 1
      created := s.created ++ [s.next_uid]
      coords := (s.next_uid, (p0, p1)) :: s.coords
      sections := (s.next_uid, sect) :: s.sections })

/-- `SapModel.FrameObj.SetReleases` with the patterns of `Frame.set_releases`. -/
def SapState.setReleases (s : SapState) (uid : Nat) (is_pinned : Bool) : SapState :=
  let rel := if is_pinned then (pinnedII, pinnedJJ) else (fixedRel, fixedRel)
  { s with releases := (uid, rel) :: s.releases }

/-- `SapModel.FrameObj.SetSection`. -/
def SapState.setSection (s : SapState) (uid : Nat) (sect : String) : SapState :=
  { s with sections := (uid, sect) :: s.sections }

/-- `SapModel.FrameObj.SetLocalAxes`. -/
def SapState.setLocalAxes (s : SapState) (uid : Nat) (ang : ℚ) : SapState :=
  { s with angles := (uid, ang) :: s.angles }

/-- `SapModel.FrameObj.Delete`. -/
def SapState.deleteFrame (s : SapState) (uid : Nat) : SapState :=
  { s with removed := s.removed ++ [uid] }

/-- `SapModel.FrameObj.SetEndLengthOffset` (rigid end zone), from
`Frame.set_rigid_end_offset`. -/
def SapState.setEndLengthOffset (s : SapState) (uid : Nat) : SapState :=
  { s with rez_set := s.rez_set ++ [uid] }

/-- `SapModel.FrameObj.SetInsertionPoint_1` (`Frame.set_cardinal_point`,
default cardinal point 8 = top center). -/
def SapState.setInsertionPoint (s : SapState) (uid : Nat) (cardinal_pt : Nat) : SapState :=
  { s with cardinal_pts := (uid, cardinal_pt) :: s.cardinal_pts }

/-- `SapModel.AreaObj.AddByCoord` for wall panels (wall ids are drawn from a
separate id space, as the source's separate wall index notes). -/
def SapState.addWallByCoord (s : SapState) (sect : String) : Nat × SapState :=
  (s.next_wall_uid,
   { s with
      next_wall_uid := s.next_wall_uid + 1
      wall_created := s.wall_created ++ [s.next_wall_uid]
      wall_sections := (s.next_wall_uid, sect) :: s.wall_sections })

/-- `SapModel.PierLabel` assignment via `Wall.set_pier_label`. -/
def SapState.setPier (s : SapState) (uid : Nat) (label : String) : SapState :=
  { s with piers := (uid, label) :: s.piers }

/-- `SapModel.AreaObj.SetProperty` (wall section reassignment in `update.py`). -/
def SapState.setWallProperty (s : SapState) (uid : Nat) (sect : String) : SapState :=
  { s with wall_sections := (uid, sect) :: s.wall_sections }

/-- `Frame.add_by_coord`: push the frame to the sink, record its id. -/
def Frame.add_by_coord (f : Frame) (s : SapState) : Frame × SapState :=
  let r := s.addFrameByCoord f.end_coords.1 f.end_coords.2 f.sect
  ({ f with unique_name := r.1 }, r.2)

/-- `Frame.delete`: remove from the sink and mark the object deleted. -/
def Frame.delete (f : Frame) (s : SapState) : Frame × SapState :=
  ({ f with deleted := true }, s.deleteFrame f.unique_name)

/-- `Frame.check_in_SFRSbay`: both end points must fall inside the closed
ordinate interval, along x for direction "X" and along y otherwise. -/
def Frame.check_in_SFRSbay (f : Frame) (frame_direction : String)
    (ordinate_from ordinate_to : ℚ) : Bool :=
  if frame_direction = "X" then
    (decide (ordinate_from ≤ px f.end_coords.1) && decide (px f.end_coords.1 ≤ ordinate_to))
    && (decide (ordinate_from ≤ px f.end_coords.2) && decide (px f.end_coords.2 ≤ ordinate_to))
  else
    (decide (ordinate_from ≤ py f.end_coords.1) && decide (py f.end_coords.1 ≤ ordinate_to))
    && (decide (ordinate_from ≤ py f.end_coords.2) && decide (py f.end_coords.2 ≤ ordinate_to))

/-- Tag index `Structure.index_for`: tag name to list of member ids. -/
abbrev Index := List (String × List Nat)

/-- Read a tag's id list (tags are pre-created by `init_index_groups`). -/
def indexGet (idx : Index) (tag : String) : List Nat :=
  ((idx.find? (fun kv => kv.1 == tag)).map (fun kv => kv.2)).getD []

/-- Python `index_for[tag].append(uid)`. -/
def indexAdd (idx : Index) (tag : String) (uid : Nat) : Index :=
  idx.map (fun kv => if kv.1 == tag then (kv.1, kv.2 ++ [uid]) else kv)

/-- Python `index_for[tag] = list(set(index_for[tag]) - set(dels))`
(membership-faithful; the source's set conversion loses order, which no
consumer relies on). -/
def indexSetSub (idx : Index) (tag : String) (dels : List Nat) : Index :=
  idx.map (fun kv =>
    if kv.1 == tag then (kv.1, kv.2.filter (fun u => !(dels.contains u))) else kv)

/-- Grid family: label to ordinate, e.g. `self.x_grids`. -/
abbrev Grids := List (String × ℚ)

def gridFind (g : Grids) (label : String) : Option ℚ :=
  (g.find? (fun kv => kv.1 == label)).map (fun kv => kv.2)

/-- Python `label in grids`. -/
def gridMem (g : Grids) (label : String) : Bool := (gridFind g label).isSome

/-- Python exception classes raised by the bay-descriptor pipeline. -/
inductive Err where
  | indexError : Err
  | keyError : String → Err
  | valueError : Err
  | typeError : Err
  deriving Repr, DecidableEq

instance {ε α : Type} [DecidableEq ε] [DecidableEq α] : DecidableEq (Except ε α) :=
  fun x y =>
    match x, y with
    | Except.error a, Except.error b =>
      if h : a = b then isTrue (by rw [h])
      else isFalse (fun hh => h (Except.error.inj hh))
    | Except.error _, Except.ok _ => isFalse (fun hh => Except.noConfusion hh)
    | Except.ok _, Except.error _ => isFalse (fun hh => Except.noConfusion hh)
    | Except.ok a, Except.ok b =>
      if h : a = b then isTrue (by rw [h])
      else isFalse (fun hh => h (Except.ok.inj hh))

/-- Python `grids[label]`: `KeyError` when the label is absent. -/
def gridLookupE (g : Grids) (label : String) : Except Err ℚ :=
  match gridFind g label with
  | some v => Except.ok v
  | none => Except.error (Err.keyError label)

/-- Parse a bay descriptor `"<on>;<from>-<to>"`; Python raises `IndexError`
on a missing `";"` or `"-"` (lines 428-431 and 510-513 of structure.py). -/
def parseSFRS (s : String) : Except Err (String × String × String) :=
  match s.splitOn ";" with
  | grid_on :: grid_fromto :: _ =>
    match grid_fromto.splitOn "-" with
    | grid_from :: grid_to :: _ => Except.ok (grid_on, grid_from, grid_to)
    | _ => Except.error Err.indexError
  | _ => Except.error Err.indexError

/-- Python `ord(s)`: `TypeError` unless `s` is a single character. -/
def ordOf (s : String) : Except Err Nat :=
  match s.data with
  | [c] => Except.ok c.toNat
  | _ => Except.error Err.typeError

/-- Python `int(s)` on the numeric grid labels. -/
def intOf (s : String) : Except Err Nat :=
  match s.toNat? with
  | some n => Except.ok n
  | none => Except.error Err.valueError

/-- Python `[chr(x) for x in range(s, e + 1)]` (empty when `s > e`). -/
def charRangeLabels (s e : Nat) : List String :=
  (List.range' s (e + 1 - s)).map (fun n => String.mk [Char.ofNat n])

/-- Python `[str(x) for x in range(s, e + 1)]` (empty when `s > e`). -/
def intRangeLabels (s e : Nat) : List String :=
  (List.range' s (e + 1 - s)).map (fun n => toString n)

/-! ### Polygon geometry

`Structure.delete_frames` calls `shapely`'s `floor_polygon.covers(line)`:
true exactly when no point of the projected member segment lies in the
exterior of the (simple) floor polygon.  The executable embedding below tests
the closed point-in-polygon predicate (even-odd rule plus boundary test) at
every parameter where the segment meets a polygon edge and at the midpoint of
every gap between consecutive such parameters. -/

/-- Cross product of two plane vectors. -/
def cross2 (u v : P2) : ℚ := u.1 * v.2 - u.2 * v.1

/-- Dot product of two plane vectors. -/
def dot2 (u v : P2) : ℚ := u.1 * v.1 + u.2 * v.2

/-- Vector from `b` to `a`. -/
def vsub (a b : P2) : P2 := (a.1 - b.1, a.2 - b.2)

/-- Point on segment `a`-`b` (inclusive). -/
def onSeg (p a b : P2) : Bool :=
  decide (cross2 (vsub b a) (vsub p a) = 0)
  && decide (min a.1 b.1 ≤ p.1) && decide (p.1 ≤ max a.1 b.1)
  && decide (min a.2 b.2 ≤ p.2) && decide (p.2 ≤ max a.2 b.2)

/-- Edges of the polygon: consecutive vertex pairs, closing back to the first
vertex (the source's vertex list does not repeat the closing vertex). -/
def polyEdges (vs : List P2) : List (P2 × P2) :=
  match vs with
  | [] => []
  | v :: _ => vs.zip (vs.tail ++ [v])

/-- Point lies on the polygon boundary. -/
def pointOnBoundary (p : P2) (vs : List P2) : Bool :=
  (polyEdges vs).any (fun e => onSeg p e.1 e.2)

/-- Rightward ray from `p` crosses the edge `a`-`b` (half-open rule). -/
def rayCrosses (p a b : P2) : Bool :=
  (decide (p.2 < a.2) != decide (p.2 < b.2))
  && decide (p.1 < a.1 + (p.2 - a.2) * (b.1 - a.1) / (b.2 - a.2))

/-- Number of polygon edges crossed by the rightward ray from `p`. -/
def crossingCount (p : P2) (vs : List P2) : Nat :=
  ((polyEdges vs).filter (fun e => rayCrosses p e.1 e.2)).length

/-- Closed point-in-polygon predicate for a simple polygon: on the boundary,
or an odd number of ray crossings. -/
def pointInPoly (p : P2) (vs : List P2) : Bool :=
  pointOnBoundary p vs || decide (crossingCount p vs % 2 = 1)

/-- Point of the segment `u`-`v` at parameter `t`. -/
def pointAt (u v : P2) (t : ℚ) : P2 :=
  (u.1 + t * (v.1 - u.1), u.2 + t * (v.2 - u.2))

/-- Parameters in `[0,1]` at which the segment `u`-`v` meets the edge `a`-`b`:
the proper intersection parameter in the transversal case, or the parameters
of the edge's endpoints in the collinear case. -/
def edgeParams (u v a b : P2) : List ℚ :=
  let d := cross2 (vsub v u) (vsub b a)
  if d ≠ 0 then
    let t := cross2 (vsub b a) (vsub a u) / cross2 (vsub b a) (vsub v u)
    let s := cross2 (vsub v u) (vsub u a) / cross2 (vsub v u) (vsub b a)
    if 0 ≤ t ∧ t ≤ 1 ∧ 0 ≤ s ∧ s ≤ 1 then [t] else []
  else if cross2 (vsub b a) (vsub a u) = 0 then
    let den := dot2 (vsub v u) (vsub v u)
    let ta := dot2 (vsub a u) (vsub v u) / den
    let tb := dot2 (vsub b u) (vsub v u) / den
    (if 0 ≤ ta ∧ ta ≤ 1 then [ta] else []) ++ (if 0 ≤ tb ∧ tb ≤ 1 then [tb] else [])
  else []

/-- Insert into a sorted list of rationals. -/
def insertRat (x : ℚ) : List ℚ → List ℚ
  | [] => [x]
  | y :: ys => if x ≤ y then x :: y :: ys else y :: insertRat x ys

/-- Insertion sort for rationals. -/
def sortRats : List ℚ → List ℚ
  | [] => []
  | x :: xs => insertRat x (sortRats xs)

/-- Embedding of `floor_polygon.covers(line)`: the closed polygon region
contains every point of the segment.  The segment is split at every parameter
where it meets an edge; each piece lies entirely inside or entirely outside,
so testing the splitting points and each piece's midpoint decides coverage. -/
def polygonCoversSeg (vs : List P2) (u v : P2) : Bool :=
  let ts := sortRats (0 :: 1 :: (polyEdges vs).flatMap (fun e => edgeParams u v e.1 e.2))
  ts.all (fun t => pointInPoly (pointAt u v t) vs)
  && (ts.zip ts.tail).all (fun q => pointInPoly (pointAt u v ((q.1 + q.2) / 2)) vs)

/-! ### Structure state -/

/-- Model options consumed by the core (`model_options` dict). -/
structure ModelOptions where
  enable_REZ : Bool
  n_infill : Nat
  deriving Repr, DecidableEq

/-- Mutable state of the `Structure` object together with the sink:
grids, frame objects, the tag indices, floor boundary polygons. -/
structure MState where
  x_grids : Grids
  y_grids : Grids
  frame_objects : List (Nat × Frame)
  index_for : Index
  index_for_walls : Index
  floor_objects : List (String × List P2)
  sap : SapState
  opts : ModelOptions
  deriving Repr, DecidableEq

/-- Lookup `self.frame_objects[uid]`. -/
def fobjGet (m : List (Nat × Frame)) (uid : Nat) : Option Frame :=
  (m.find? (fun kv => kv.1 == uid)).map (fun kv => kv.2)

/-- Overwrite the entry of `uid` (Python mutates the stored object). -/
def fmapSet (m : List (Nat × Frame)) (uid : Nat) (f : Frame) : List (Nat × Frame) :=
  m.map (fun kv => if kv.1 == uid then (kv.1, f) else kv)

/-- Row of `df_floors` (geometry columns; loads and slab are not consumed by
the embedded operations).  Heights and elevations are in feet as in the
spreadsheet; the source multiplies by 12. -/
structure FloorRow where
  floor_name : String
  floor_height : ℚ
  floor_elev : ℚ
  column : String
  girder : String
  beam : String
  deriving Repr, DecidableEq

/-- Row of `df_SFRSbays`: floor name and the bay descriptor cells
(`None` for an empty cell, skipped via `pd.isna`). -/
structure SFRSRow where
  floor_name : String
  bays : List (Option String)
  deriving Repr, DecidableEq

/-- Row of `df_MF`. -/
structure MFRow where
  x_column : String
  x_beam : String
  y_column : String
  y_beam : String
  deriving Repr, DecidableEq

/-- Row of `df_braces`. -/
structure BraceRow where
  x_brace : String
  x_config : String
  y_brace : String
  y_config : String
  deriving Repr, DecidableEq

/-- Row of `df_walls`. -/
structure WallRow where
  x_wall : String
  y_wall : String
  deriving Repr, DecidableEq

/-! ### Brace generation (`Structure._add_braces_*`) -/

/-- Shared tail of every brace creation: push to the sink, fix releases,
optional rigid end zone, mark lateral, register in the four tags.  This is the
body repeated in each `_add_braces_*` helper of the source. -/
def applyBraceProps (S : MState) (fr : Frame)
    (floor_name ongrid index_group direction : String) : Frame × MState :=
  let r := fr.add_by_coord S.sap
  let fr := r.1
  let sap := r.2.setReleases fr.unique_name false
  let sap := if S.opts.enable_REZ then sap.setEndLengthOffset fr.unique_name else sap
  let fr := { fr with is_lateral := true, frame_direction := some direction }
  let idx := indexAdd S.index_for floor_name fr.unique_name
  let idx := indexAdd idx ("on " ++ ongrid) fr.unique_name
  let idx := indexAdd idx "SFRS" fr.unique_name
  let idx := indexAdd idx index_group fr.unique_name
  (fr, { S with sap := sap, index_for := idx })

/-- Apply `applyBraceProps` to each frame of a generated list in order,
collecting the finished frames. -/
def applyBraceList (S : MState) (frs : List Frame)
    (floor_name ongrid index_group direction : String) : List Frame × MState :=
  frs.foldl
    (fun acc fr =>
      let r := applyBraceProps acc.2 fr floor_name ongrid index_group direction
      (acc.1 ++ [r.1], r.2))
    ([], S)

/-- Index group receiving the braces of a direction. -/
def braceIndexGroup (direction : String) : String :=
  if direction = "X" then "SFRS_braceX" else "SFRS_braceY"

/-- Consecutive ordinate pairs, the sub-bays `k, k+1` of the source loops. -/
def subBays (ordinate_range : List ℚ) : List (ℚ × ℚ) :=
  ordinate_range.zip ordinate_range.tail

/-- Frames of `_add_braces_singleA`: one rising diagonal per sub-bay. -/
def singleAFrames (floor_name direction : String) (abscissa : ℚ)
    (ordinate_range : List ℚ) (brace_section : String)
    (z_current z_below : ℚ) : List Frame :=
  (subBays ordinate_range).flatMap (fun p =>
    let o1 := p.1
    let o2 := p.2
    let ec : P3 × P3 :=
      if direction = "X" then ((o1, abscissa, z_below), (o2, abscissa, z_current))
      else ((abscissa, o1, z_below), (abscissa, o2, z_current))
    [{ frame_type := "SFRS_brace", story := floor_name, sect := brace_section,
       end_coords := ec }])

/-- Frames of `_add_braces_singleB`: the mirrored diagonal (start and end of
each sub-bay swapped). -/
def singleBFrames (floor_name direction : String) (abscissa : ℚ)
    (ordinate_range : List ℚ) (brace_section : String)
    (z_current z_below : ℚ) : List Frame :=
  (subBays ordinate_range).flatMap (fun p =>
    let o1 := p.2
    let o2 := p.1
    let ec : P3 × P3 :=
      if direction = "X" then ((o1, abscissa, z_below), (o2, abscissa, z_current))
      else ((abscissa, o1, z_below), (abscissa, o2, z_current))
    [{ frame_type := "SFRS_brace", story := floor_name, sect := brace_section,
       end_coords := ec }])

/-- Frames of `_add_braces_V`: two diagonals meeting at the sub-bay midpoint
at the lower elevation. -/
def vFrames (floor_name direction : String) (abscissa : ℚ)
    (ordinate_range : List ℚ) (brace_section : String)
    (z_current z_below : ℚ) : List Frame :=
  (subBays ordinate_range).flatMap (fun p =>
    let o1 := p.1
    let o2 := p.2
    let midpoint := (o2 + o1) / 2
    let ecs : List (P3 × P3) :=
      if direction = "X" then
        [((o1, abscissa, z_current), (midpoint, abscissa, z_below)),
         ((midpoint, abscissa, z_below), (o2, abscissa, z_current))]
      else
        [((abscissa, o1, z_current), (abscissa, midpoint, z_below)),
         ((abscissa, midpoint, z_below), (abscissa, o2, z_current))]
    ecs.map (fun ec =>
      { frame_type := "SFRS_brace", story := floor_name, sect := brace_section,
        end_coords := ec }))

/-- Frames of `_add_braces_chevron`: two diagonals meeting at the sub-bay
midpoint at the upper elevation (inverted V). -/
def chevronFrames (floor_name direction : String) (abscissa : ℚ)
    (ordinate_range : List ℚ) (brace_section : String)
    (z_current z_below : ℚ) : List Frame :=
  (subBays ordinate_range).flatMap (fun p =>
    let o1 := p.1
    let o2 := p.2
    let midpoint := (o2 + o1) / 2
    let ecs : List (P3 × P3) :=
      if direction = "X" then
        [((o1, abscissa, z_below), (midpoint, abscissa, z_current)),
         ((midpoint, abscissa, z_current), (o2, abscissa, z_below))]
      else
        [((abscissa, o1, z_below), (abscissa, midpoint, z_current)),
         ((abscissa, midpoint, z_current), (abscissa, o2, z_below))]
    ecs.map (fun ec =>
      { frame_type := "SFRS_brace", story := floor_name, sect := brace_section,
        end_coords := ec }))

/-- Frames of `_add_braces_X`: four half-height diagonals crossing at the
sub-bay midpoint ordinate and mid-height elevation. -/
def xFrames (floor_name direction : String) (abscissa : ℚ)
    (ordinate_range : List ℚ) (brace_section : String)
    (z_current z_below : ℚ) : List Frame :=
  (subBays ordinate_range).flatMap (fun p =>
    let o1 := p.1
    let o2 := p.2
    let midpoint := (o2 + o1) / 2
    let z_mid := (z_current + z_below) / 2
    let ecs : List (P3 × P3) :=
      if direction = "X" then
        [((o1, abscissa, z_below), (midpoint, abscissa, z_mid)),
         ((midpoint, abscissa, z_mid), (o2, abscissa, z_current)),
         ((o1, abscissa, z_current), (midpoint, abscissa, z_mid)),
         ((midpoint, abscissa, z_mid), (o2, abscissa, z_below))]
      else
        [((abscissa, o1, z_below), (abscissa, midpoint, z_mid)),
         ((abscissa, midpoint, z_mid), (abscissa, o2, z_current)),
         ((abscissa, o1, z_current), (abscissa, midpoint, z_mid)),
         ((abscissa, midpoint, z_mid), (abscissa, o2, z_below))]
    ecs.map (fun ec =>
      { frame_type := "SFRS_brace", story := floor_name, sect := brace_section,
        end_coords := ec }))

/-- `Structure._add_braces_singleA`. -/
def add_braces_singleA (S : MState) (floor_name direction : String) (abscissa : ℚ)
    (ordinate_range : List ℚ) (brace_section : String) (z_current z_below : ℚ)
    (ongrid : String) : List Frame × MState :=
  applyBraceList S
    (singleAFrames floor_name direction abscissa ordinate_range brace_section z_current z_below)
    floor_name ongrid (braceIndexGroup direction) direction

/-- `Structure._add_braces_singleB`. -/
def add_braces_singleB (S : MState) (floor_name direction : String) (abscissa : ℚ)
    (ordinate_range : List ℚ) (brace_section : String) (z_current z_below : ℚ)
    (ongrid : String) : List Frame × MState :=
  applyBraceList S
    (singleBFrames floor_name direction abscissa ordinate_range brace_section z_current z_below)
    floor_name ongrid (braceIndexGroup direction) direction

/-- `Structure._add_braces_V`. -/
def add_braces_V (S : MState) (floor_name direction : String) (abscissa : ℚ)
    (ordinate_range : List ℚ) (brace_section : String) (z_current z_below : ℚ)
    (ongrid : String) : List Frame × MState :=
  applyBraceList S
    (vFrames floor_name direction abscissa ordinate_range brace_section z_current z_below)
    floor_name ongrid (braceIndexGroup direction) direction

/-- `Structure._add_braces_chevron`. -/
def add_braces_chevron (S : MState) (floor_name direction : String) (abscissa : ℚ)
    (ordinate_range : List ℚ) (brace_section : String) (z_current z_below : ℚ)
    (ongrid : String) : List Frame × MState :=
  applyBraceList S
    (chevronFrames floor_name direction abscissa ordinate_range brace_section z_current z_below)
    floor_name ongrid (braceIndexGroup direction) direction

/-- `Structure._add_braces_X`. -/
def add_braces_X (S : MState) (floor_name direction : String) (abscissa : ℚ)
    (ordinate_range : List ℚ) (brace_section : String) (z_current z_below : ℚ)
    (ongrid : String) : List Frame × MState :=
  applyBraceList S
    (xFrames floor_name direction abscissa ordinate_range brace_section z_current z_below)
    floor_name ongrid (braceIndexGroup direction) direction

/-! ### `Structure.add_braces` -/

/-- Resolution of a parsed bay descriptor for brace generation: the branch on
`grid_on in self.x_grids` of `add_braces` (lines 516-529). -/
structure BayResolution where
  frame_direction : String
  abscissa : ℚ
  ordinate_range : List ℚ
  brace_section : String
  brace_config : String
  deriving Repr, DecidableEq

/-- Branch of `add_braces` computing direction, abscissa, ordinate range and
brace section/config for one parsed descriptor. -/
def resolveBayBraces (x_grids y_grids : Grids) (row : BraceRow)
    (grid_on start fin : String) : Except Err BayResolution :=
  match gridFind x_grids grid_on with
  | some abscissa => do
    let s ← ordOf start
    let e ← ordOf fin
    let ordinate_range ← (charRangeLabels s e).mapM (gridLookupE y_grids)
    Except.ok { frame_direction := "X", abscissa := abscissa,
                ordinate_range := ordinate_range,
                brace_section := row.x_brace, brace_config := row.x_config }
  | none => do
    let abscissa ← gridLookupE y_grids grid_on
    let s ← intOf start
    let e ← intOf fin
    let ordinate_range ← (intRangeLabels s e).mapM (gridLookupE x_grids)
    Except.ok { frame_direction := "Y", abscissa := abscissa,
                ordinate_range := ordinate_range,
                brace_section := row.y_brace, brace_config := row.y_config }

/-- Python `needle in haystack` on strings (substring containment). -/
def containsSub (needle : List Char) : List Char → Bool
  | [] => needle.isEmpty
  | c :: rest => needle.isPrefixOf (c :: rest) || containsSub needle rest

/-- Normalisation of the config token: the source replaces any config string
containing `SingleA` (resp. `SingleB`) by that prefix key (lines 531-535). -/
def braceConfigKey (brace_config : String) : String :=
  let bc := if containsSub "SingleA".data brace_config.data then "SingleA" else brace_config
  let bc := if containsSub "SingleB".data bc.data then "SingleB" else bc
  bc

/-- The `brace_generator_funcs` dispatch dictionary; an unknown token is a
Python `KeyError`. -/
def selectBraceGenerator (key : String) :
    Except Err (MState → String → String → ℚ → List ℚ → String → ℚ → ℚ → String →
                List Frame × MState) :=
  if key = "SingleA" then Except.ok add_braces_singleA
  else if key = "SingleB" then Except.ok add_braces_singleB
  else if key = "X" then Except.ok add_braces_X
  else if key = "V" then Except.ok add_braces_V
  else if key = "Chevron" then Except.ok add_braces_chevron
  else Except.error (Err.keyError key)

/-- Processing of one non-empty bay cell inside `add_braces`: parse, resolve,
dispatch, generate.  Any raised error aborts before the generator (and hence
any sink mutation for this bay) runs. -/
def processBayBraces (S : MState) (floor_name : String) (z_current z_below : ℚ)
    (row : BraceRow) (SFRS_string : String) : Except Err MState := do
  let p ← parseSFRS SFRS_string
  let res ← resolveBayBraces S.x_grids S.y_grids row p.1 p.2.1 p.2.2
  let key := braceConfigKey res.brace_config
  let gen ← selectBraceGenerator key
  Except.ok (gen S floor_name res.frame_direction res.abscissa res.ordinate_range
      res.brace_section z_current z_below p.1).2

/-- One bay cell of the `add_braces` loop; a previously raised error stops
all further processing (the Python exception propagates out of `add_braces`). -/
def braceBayStep (floor_name : String) (z_current z_below : ℚ) (row : BraceRow)
    (acc : MState × Option Err) (b : Option String) : MState × Option Err :=
  match acc.2 with
  | some _ => acc
  | none =>
    match b with
    | none => acc
    | some s =>
      match processBayBraces acc.1 floor_name z_current z_below row s with
      | Except.ok S2 => (S2, none)
      | Except.error e => (acc.1, some e)

/-- Fold the bay cells of one floor row. -/
def foldBaysBraces (S : MState) (floor_name : String) (z_current z_below : ℚ)
    (row : BraceRow) (bays : List (Option String)) : MState × Option Err :=
  bays.foldl (braceBayStep floor_name z_current z_below row) (S, none)

/-- One floor row of the `add_braces` loop. -/
def braceRowStep (acc : MState × Option Err) (row : SFRSRow × FloorRow × BraceRow) :
    MState × Option Err :=
  match acc.2 with
  | some _ => acc
  | none =>
    let z_current := row.2.1.floor_elev * 12
    let z_below := z_current - row.2.1.floor_height * 12
    (row.1.bays.foldl
      (braceBayStep row.1.floor_name z_current z_below row.2.2) (acc.1, none))

/-- `Structure.add_braces`: loop the floors roof to base, each with its
`df_floors` elevations and `df_braces` row.  The second component records the
first raised error, after which no further bay or floor is processed. -/
def add_braces (S : MState) (df_floors : List FloorRow)
    (df_SFRSbays : List SFRSRow) (df_braces : List BraceRow) : MState × Option Err :=
  (df_SFRSbays.zip (df_floors.zip df_braces)).foldl braceRowStep (S, none)

/-! ### `Structure.add_MFs` -/

/-- Ordinate limits and direction for one parsed descriptor in `add_MFs`
(lines 434-443): the branch tests which family contains `grid_from`, takes
min and max of the two ordinates, and sets the direction. -/
def resolveBayMF (x_grids y_grids : Grids) (grid_from grid_to : String) :
    Except Err (ℚ × ℚ × String) :=
  if gridMem x_grids grid_from then do
    let v1 ← gridLookupE x_grids grid_from
    let v2 ← gridLookupE x_grids grid_to
    Except.ok (min v1 v2, max v1 v2, "Y")
  else do
    let v1 ← gridLookupE y_grids grid_from
    let v2 ← gridLookupE y_grids grid_to
    Except.ok (min v1 v2, max v1 v2, "X")

/-- Body of the candidate loop of `add_MFs` (lines 447-481) for a single
member id: if the member lies in the bay, re-release it as fixed, mark it
lateral, optionally set the rigid end zone, and promote columns and
girders/beams to their SFRS roles with the direction-specific section
(Y-columns also get the 90-degree local-axis rotation).  A candidate id
always names a generated frame; an unknown id is left untouched. -/
def processMemberMF (S : MState) (frame_direction : String)
    (ordinate_from ordinate_to : ℚ) (x_col x_bm y_col y_bm : String)
    (uid : Nat) : MState :=
  match fobjGet S.frame_objects uid with
  | none => S
  | some frame_obj =>
    if frame_obj.check_in_SFRSbay frame_direction ordinate_from ordinate_to then
      let sap := S.sap.setReleases uid false
      let frame_obj := { frame_obj with is_lateral := true,
                                        frame_direction := some frame_direction }
      let sap := if S.opts.enable_REZ then sap.setEndLengthOffset uid else sap
      let index_for := indexAdd S.index_for "SFRS" uid
      if frame_direction = "X" then
        if frame_obj.frame_type = "column" then
          let frame_obj := { frame_obj with frame_type := "SFRS_column" }
          let sap := sap.setSection uid x_col
          let index_for := indexAdd index_for "SFRS_columnX" uid
          { S with sap := sap, index_for := index_for,
                   frame_objects := fmapSet S.frame_objects uid frame_obj }
        else if frame_obj.frame_type = "girder" then
          let frame_obj := { frame_obj with frame_type := "SFRS_beam" }
          let sap := sap.setSection uid x_bm
          let index_for := indexAdd index_for "SFRS_beamX" uid
          { S with sap := sap, index_for := index_for,
                   frame_objects := fmapSet S.frame_objects uid frame_obj }
        else
          { S with sap := sap, index_for := index_for,
                   frame_objects := fmapSet S.frame_objects uid frame_obj }
      else
        if frame_obj.frame_type = "column" then
          let frame_obj := { frame_obj with frame_type := "SFRS_column" }
          let sap := (sap.setSection uid y_col).setLocalAxes uid 90
          let index_for := indexAdd index_for "SFRS_columnY" uid
          { S with sap := sap, index_for := index_for,
                   frame_objects := fmapSet S.frame_objects uid frame_obj }
        else if frame_obj.frame_type = "beam" then
          let frame_obj := { frame_obj with frame_type := "SFRS_beam" }
          let sap := sap.setSection uid y_bm
          let index_for := indexAdd index_for "SFRS_beamY" uid
          { S with sap := sap, index_for := index_for,
                   frame_objects := fmapSet S.frame_objects uid frame_obj }
        else
          { S with sap := sap, index_for := index_for,
                   frame_objects := fmapSet S.frame_objects uid frame_obj }
    else S

/-- Candidate ids of a bay: `set(index_for["on "+grid_on]) & set(index_for[floor])`
(membership-faithful enumeration of the source's set intersection). -/
def bayCandidates (idx : Index) (grid_on floor_name : String) : List Nat :=
  (indexGet idx ("on " ++ grid_on)).filter
    (fun uid => (indexGet idx floor_name).contains uid)

/-- Processing of one non-empty bay cell inside `add_MFs`. -/
def processBayMF (S : MState) (floor_name : String) (mf : MFRow)
    (SFRS_string : String) : Except Err MState := do
  let p ← parseSFRS SFRS_string
  let r ← resolveBayMF S.x_grids S.y_grids p.2.1 p.2.2
  let relevant := bayCandidates S.index_for p.1 floor_name
  Except.ok (relevant.foldl
    (fun St uid =>
      processMemberMF St r.2.2 r.1 r.2.1 mf.x_column mf.x_beam mf.y_column mf.y_beam uid)
    S)

/-- One bay cell of the `add_MFs` loop; a previously raised error stops all
further processing. -/
def mfBayStep (floor_name : String) (mf : MFRow)
    (acc : MState × Option Err) (b : Option String) : MState × Option Err :=
  match acc.2 with
  | some _ => acc
  | none =>
    match b with
    | none => acc
    | some s =>
      match processBayMF acc.1 floor_name mf s with
      | Except.ok S2 => (S2, none)
      | Except.error e => (acc.1, some e)

/-- Fold the bay cells of one floor row of `add_MFs`. -/
def foldBaysMF (S : MState) (floor_name : String) (mf : MFRow)
    (bays : List (Option String)) : MState × Option Err :=
  bays.foldl (mfBayStep floor_name mf) (S, none)

/-- One floor row of the `add_MFs` loop. -/
def mfRowStep (acc : MState × Option Err) (row : SFRSRow × MFRow) :
    MState × Option Err :=
  match acc.2 with
  | some _ => acc
  | none => row.1.bays.foldl (mfBayStep row.1.floor_name row.2) (acc.1, none)

/-- `Structure.add_MFs`: loop the floors roof to base, each with its
`df_MF` row of section sizes. -/
def add_MFs (S : MState) (df_SFRSbays : List SFRSRow) (df_MF : List MFRow) :
    MState × Option Err :=
  (df_SFRSbays.zip df_MF).foldl mfRowStep (S, none)

/-! ### `Structure.add_walls` -/

/-- Embedding of the Python `Wall` object (`wall.py`). -/
structure Wall where
  story : String
  vertices : List P3
  sect : String
  wall_direction : String
  pier_label : String
  unique_name : Nat := 0
  deriving Repr, DecidableEq

/-- Wall-panel loop body shared by the two branches of `add_walls`: one
vertical quadrilateral per consecutive ordinate pair, pushed to the sink,
pier-labelled, and registered in the wall index. -/
def addWallPanels (S : MState) (floor_name grid_on wall_direction : String)
    (abscissa : ℚ) (ordinate_range : List ℚ) (wall_section pier_label : String)
    (z_current z_below : ℚ) : List Wall × MState :=
  (subBays ordinate_range).foldl
    (fun acc p =>
      let o1 := p.1
      let o2 := p.2
      let vertices : List P3 :=
        if wall_direction = "X" then
          [(o1, abscissa, z_current), (o2, abscissa, z_current),
           (o2, abscissa, z_below), (o1, abscissa, z_below)]
        else
          [(abscissa, o1, z_current), (abscissa, o2, z_current),
           (abscissa, o2, z_below), (abscissa, o1, z_below)]
      let w : Wall := { story := floor_name, vertices := vertices,
                        sect := wall_section, wall_direction := wall_direction,
                        pier_label := pier_label }
      let S0 := acc.2
      let r := S0.sap.addWallByCoord w.sect
      let w := { w with unique_name := r.1 }
      let sap := r.2.setPier w.unique_name w.pier_label
      let idxw := indexAdd S0.index_for_walls floor_name w.unique_name
      let idxw := indexAdd idxw ("on " ++ grid_on) w.unique_name
      let idxw := indexAdd idxw
        (if wall_direction = "X" then "SFRS_wallX" else "SFRS_wallY") w.unique_name
      (acc.1 ++ [w], { S0 with sap := sap, index_for_walls := idxw }))
    ([], S)

/-- Processing of one non-empty bay cell inside `add_walls` (lines 576-634):
parse, resolve the family of `grid_on`, then emit the panels.  The pier label
is `floor + "_" + descriptor`. -/
def processBayWalls (S : MState) (floor_name : String) (z_current z_below : ℚ)
    (row : WallRow) (SFRS_string : String) : Except Err MState := do
  let p ← parseSFRS SFRS_string
  let pier_label := floor_name ++ "_" ++ SFRS_string
  match gridFind S.x_grids p.1 with
  | some abscissa => do
    let s ← ordOf p.2.1
    let e ← ordOf p.2.2
    let ordinate_range ← (charRangeLabels s e).mapM (gridLookupE S.y_grids)
    Except.ok (addWallPanels S floor_name p.1 "X" abscissa ordinate_range
      row.x_wall pier_label z_current z_below).2
  | none => do
    let abscissa ← gridLookupE S.y_grids p.1
    let s ← intOf p.2.1
    let e ← intOf p.2.2
    let ordinate_range ← (intRangeLabels s e).mapM (gridLookupE S.x_grids)
    Except.ok (addWallPanels S floor_name p.1 "Y" abscissa ordinate_range
      row.y_wall pier_label z_current z_below).2

/-- One bay cell of the `add_walls` loop. -/
def wallBayStep (floor_name : String) (z_current z_below : ℚ) (row : WallRow)
    (acc : MState × Option Err) (b : Option String) : MState × Option Err :=
  match acc.2 with
  | some _ => acc
  | none =>
    match b with
    | none => acc
    | some s =>
      match processBayWalls acc.1 floor_name z_current z_below row s with
      | Except.ok S2 => (S2, none)
      | Except.error e => (acc.1, some e)

/-- Fold the bay cells of one floor row of `add_walls`. -/
def foldBaysWalls (S : MState) (floor_name : String) (z_current z_below : ℚ)
    (row : WallRow) (bays : List (Option String)) : MState × Option Err :=
  bays.foldl (wallBayStep floor_name z_current z_below row) (S, none)

/-- One floor row of the `add_walls` loop. -/
def wallRowStep (acc : MState × Option Err) (row : SFRSRow × FloorRow × WallRow) :
    MState × Option Err :=
  match acc.2 with
  | some _ => acc
  | none =>
    let z_current := row.2.1.floor_elev * 12
    let z_below := z_current - row.2.1.floor_height * 12
    (row.1.bays.foldl
      (wallBayStep row.1.floor_name z_current z_below row.2.2) (acc.1, none))

/-- `Structure.add_walls` (the prior-pier cleanup keeps only the reserved
default label "P1"). -/
def add_walls (S : MState) (df_floors : List FloorRow)
    (df_SFRSbays : List SFRSRow) (df_walls : List WallRow) : MState × Option Err :=
  let S := { S with sap :=
    { S.sap with piers := S.sap.piers.filter (fun kv => kv.2 == "P1") } }
  (df_SFRSbays.zip (df_floors.zip df_walls)).foldl wallRowStep (S, none)

/-! ### `Structure.init_index_groups` and `Structure.create_frames` -/

/-- Tag keys of `self.index_for`. -/
def init_index_groups (floor_names : List String) (x_grids y_grids : Grids) : Index :=
  [("column", []), ("girder", []), ("beam", []), ("SFRS", []),
   ("SFRS_beamX", []), ("SFRS_beamY", []), ("SFRS_columnX", []),
   ("SFRS_columnY", []), ("SFRS_braceX", []), ("SFRS_braceY", []), ("deleted", [])]
  ++ floor_names.map (fun f => (f, ([] : List Nat)))
  ++ x_grids.map (fun g => ("on " ++ g.1, ([] : List Nat)))
  ++ y_grids.map (fun g => ("on " ++ g.1, ([] : List Nat)))

/-- Tag keys of `self.index_for_walls`. -/
def init_index_groups_walls (floor_names : List String) (x_grids y_grids : Grids) :
    Index :=
  [("SFRS_wallX", []), ("SFRS_wallY", [])]
  ++ floor_names.map (fun f => (f, ([] : List Nat)))
  ++ x_grids.map (fun g => ("on " ++ g.1, ([] : List Nat)))
  ++ y_grids.map (fun g => ("on " ++ g.1, ([] : List Nat)))

/-- Iteration domain of the column loop: every `(ygrid, xgrid)` pair, outer
loop over the Y-family (X ordinates), inner over the X-family (Y ordinates). -/
def columnPairs (x_grids y_grids : Grids) : List ((String × ℚ) × (String × ℚ)) :=
  y_grids.flatMap (fun yg => x_grids.map (fun xg => (yg, xg)))

/-- Column creation step (lines 275-286): one column per grid intersection,
from the floor-below elevation to the current elevation, tagged with its
role, floor, and both grid lines. -/
def createColumn (floor_name col_section : String) (z_current z_below : ℚ)
    (S : MState) (p : (String × ℚ) × (String × ℚ)) : Frame × MState :=
  let x := p.1.2
  let y := p.2.2
  let fr : Frame := { frame_type := "column", story := floor_name,
                      sect := col_section,
                      end_coords := ((x, y, z_below), (x, y, z_current)) }
  let r := fr.add_by_coord S.sap
  let fr := r.1
  let idx := indexAdd S.index_for "column" fr.unique_name
  let idx := indexAdd idx floor_name fr.unique_name
  let idx := indexAdd idx ("on " ++ p.2.1) fr.unique_name
  let idx := indexAdd idx ("on " ++ p.1.1) fr.unique_name
  (fr, { S with sap := r.2, index_for := idx,
                frame_objects := S.frame_objects ++ [(fr.unique_name, fr)] })

/-- All columns of one floor. -/
def createColumnsFloor (S : MState) (floor_name col_section : String)
    (z_current z_below : ℚ) : List Frame × MState :=
  (columnPairs S.x_grids S.y_grids).foldl
    (fun acc p =>
      let r := createColumn floor_name col_section z_current z_below acc.2 p
      (acc.1 ++ [r.1], r.2))
    ([], S)

/-- Iteration domain of the X-girder loop: each X grid with each consecutive
pair of Y-family entries. -/
def girderTriples (x_grids y_grids : Grids) :
    List ((String × ℚ) × ((String × ℚ) × (String × ℚ))) :=
  x_grids.flatMap (fun xg => (y_grids.zip y_grids.tail).map (fun yp => (xg, yp)))

/-- X-girder creation step (lines 291-306): pinned releases, top-center
cardinal point, tagged girder / floor / on its X grid. -/
def createGirder (floor_name girder_section : String) (z_current : ℚ)
    (S : MState) (t : (String × ℚ) × ((String × ℚ) × (String × ℚ))) :
    Frame × MState :=
  let y := t.1.2
  let x_start := t.2.1.2
  let x_end := t.2.2.2
  let fr : Frame := { frame_type := "girder", story := floor_name,
                      sect := girder_section,
                      end_coords := ((x_start, y, z_current), (x_end, y, z_current)) }
  let r := fr.add_by_coord S.sap
  let fr := r.1
  let sap := (r.2.setReleases fr.unique_name true).setInsertionPoint fr.unique_name 8
  let idx := indexAdd S.index_for "girder" fr.unique_name
  let idx := indexAdd idx floor_name fr.unique_name
  let idx := indexAdd idx ("on " ++ t.1.1) fr.unique_name
  (fr, { S with sap := sap, index_for := idx,
                frame_objects := S.frame_objects ++ [(fr.unique_name, fr)] })

/-- All X girders of one floor. -/
def createGirdersFloor (S : MState) (floor_name girder_section : String)
    (z_current : ℚ) : List Frame × MState :=
  (girderTriples S.x_grids S.y_grids).foldl
    (fun acc t =>
      let r := createGirder floor_name girder_section z_current acc.2 t
      (acc.1 ++ [r.1], r.2))
    ([], S)

/-- Iteration domain of the Y-girder ("beam") loop: each Y grid with each
consecutive pair of X-family entries. -/
def beamTriples (x_grids y_grids : Grids) :
    List ((String × ℚ) × ((String × ℚ) × (String × ℚ))) :=
  y_grids.flatMap (fun yg => (x_grids.zip x_grids.tail).map (fun xp => (yg, xp)))

/-- Y-girder creation step (lines 309-324): beam-sized, pinned, tagged
beam / floor / on its Y grid. -/
def createBeam (floor_name bm_section : String) (z_current : ℚ)
    (S : MState) (t : (String × ℚ) × ((String × ℚ) × (String × ℚ))) :
    Frame × MState :=
  let x := t.1.2
  let y_start := t.2.1.2
  let y_end := t.2.2.2
  let fr : Frame := { frame_type := "beam", story := floor_name,
                      sect := bm_section,
                      end_coords := ((x, y_start, z_current), (x, y_end, z_current)) }
  let r := fr.add_by_coord S.sap
  let fr := r.1
  let sap := (r.2.setReleases fr.unique_name true).setInsertionPoint fr.unique_name 8
  let idx := indexAdd S.index_for "beam" fr.unique_name
  let idx := indexAdd idx floor_name fr.unique_name
  let idx := indexAdd idx ("on " ++ t.1.1) fr.unique_name
  (fr, { S with sap := sap, index_for := idx,
                frame_objects := S.frame_objects ++ [(fr.unique_name, fr)] })

/-- All Y girders (beam-sized) of one floor. -/
def createBeamsFloor (S : MState) (floor_name bm_section : String)
    (z_current : ℚ) : List Frame × MState :=
  (beamTriples S.x_grids S.y_grids).foldl
    (fun acc t =>
      let r := createBeam floor_name bm_section z_current acc.2 t
      (acc.1 ++ [r.1], r.2))
    ([], S)

/-- Iteration domain of the infill loop: each consecutive Y-family pair, each
consecutive X-family pair, each infill position `k`. -/
def infillTriples (x_grids y_grids : Grids) (n_infill : Nat) :
    List (((String × ℚ) × (String × ℚ)) × ((String × ℚ) × (String × ℚ)) × Nat) :=
  (y_grids.zip y_grids.tail).flatMap (fun yp =>
    (x_grids.zip x_grids.tail).flatMap (fun xp =>
      (List.range n_infill).map (fun k => (yp, xp, k))))

/-- Infill beam creation step (lines 327-347): Y-direction beam at fractional
offset `(k+1)/(n_infill+1)` across the bay width; registered **only** under
the beam role tag and the floor tag. -/
def createInfill (floor_name bm_section : String) (z_current : ℚ) (n_infill : Nat)
    (S : MState)
    (t : ((String × ℚ) × (String × ℚ)) × ((String × ℚ) × (String × ℚ)) × Nat) :
    Frame × MState :=
  let x_left := t.1.1.2
  let x_right := t.1.2.2
  let y_start := t.2.1.1.2
  let y_end := t.2.1.2.2
  let k := t.2.2
  let bay_width := x_right - x_left
  let x := x_left + (k + 1 : ℚ) * bay_width / ((n_infill : ℚ) + 1)
  let fr : Frame := { frame_type := "beam", story := floor_name,
                      sect := bm_section,
                      end_coords := ((x, y_start, z_current), (x, y_end, z_current)) }
  let r := fr.add_by_coord S.sap
  let fr := r.1
  let sap := (r.2.setReleases fr.unique_name true).setInsertionPoint fr.unique_name 8
  let idx := indexAdd S.index_for "beam" fr.unique_name
  let idx := indexAdd idx floor_name fr.unique_name
  (fr, { S with sap := sap, index_for := idx,
                frame_objects := S.frame_objects ++ [(fr.unique_name, fr)] })

/-- All infill beams of one floor. -/
def createInfillFloor (S : MState) (floor_name bm_section : String)
    (z_current : ℚ) : List Frame × MState :=
  (infillTriples S.x_grids S.y_grids S.opts.n_infill).foldl
    (fun acc t =>
      let r := createInfill floor_name bm_section z_current S.opts.n_infill acc.2 t
      (acc.1 ++ [r.1], r.2))
    ([], S)

/-- One floor of `create_frames`: columns, X girders, Y girders, infill. -/
def create_frames_floor (S : MState) (row : FloorRow) : MState :=
  let z_current := row.floor_elev * 12
  let z_below := z_current - row.floor_height * 12
  let S := (createColumnsFloor S row.floor_name row.column z_current z_below).2
  let S := (createGirdersFloor S row.floor_name row.girder z_current).2
  let S := (createBeamsFloor S row.floor_name row.beam z_current).2
  (createInfillFloor S row.floor_name row.beam z_current).2

/-- `Structure.create_frames`: initialise the tag indices, then generate the
lattice floor by floor from roof to base. -/
def create_frames (S : MState) (df_floors : List FloorRow) : MState :=
  let S := { S with
    index_for := init_index_groups (df_floors.map (fun r => r.floor_name))
                    S.x_grids S.y_grids
    index_for_walls := init_index_groups_walls (df_floors.map (fun r => r.floor_name))
                    S.x_grids S.y_grids }
  df_floors.foldl create_frames_floor S

/-! ### `Structure.delete_frames` -/

/-- Boundary polygon of a floor, from `self.floor_objects[floor_name].vertices`. -/
def floorPoly (S : MState) (floor_name : String) : List P2 :=
  ((S.floor_objects.find? (fun kv => kv.1 == floor_name)).map (fun kv => kv.2)).getD []

/-- 2D projection of a member's end coordinates
(`[(a[0], a[1]) for a in frame_obj.end_coords]`). -/
def projSeg (fr : Frame) : P2 × P2 :=
  ((px fr.end_coords.1, py fr.end_coords.1), (px fr.end_coords.2, py fr.end_coords.2))

/-- One floor of the trimming pass (lines 362-379): every member under the
floor tag whose projected segment is not covered by the floor polygon is
deleted in the sink and recorded under the "deleted" tag. -/
def deleteFrameStep (vertices : List P2) (St : MState) (uid : Nat) : MState :=
  match fobjGet St.frame_objects uid with
  | none => St
  | some frame_obj =>
    let pr := projSeg frame_obj
    if polygonCoversSeg vertices pr.1 pr.2 then St
    else
      let r := frame_obj.delete St.sap
      { St with sap := r.2,
                frame_objects := fmapSet St.frame_objects uid r.1,
                index_for := indexAdd St.index_for "deleted" uid }

/-- One floor of the trimming pass (continued): fold `deleteFrameStep` over
the floor tag. -/
def delete_frames_floor (S : MState) (floor_name : String) : MState :=
  (indexGet S.index_for floor_name).foldl
    (deleteFrameStep (floorPoly S floor_name)) S

/-- `Structure.delete_frames`: trim every floor, then subtract the deleted
ids from the three gravity role tags (lines 381-384). -/
def delete_frames (S : MState) (floor_names : List String) : MState :=
  let S := floor_names.foldl delete_frames_floor S
  let dels := indexGet S.index_for "deleted"
  let idx := indexSetSub S.index_for "column" dels
  let idx := indexSetSub idx "girder" dels
  let idx := indexSetSub idx "beam" dels
  { S with index_for := idx }

/-! ### Resync pass (`update.py` `main`, lines 38-113) -/

/-- `set(index_for[t1]) & set(index_for[t2])` (membership-faithful). -/
def interTags (idx : Index) (t1 t2 : String) : List Nat :=
  (indexGet idx t1).filter (fun u => (indexGet idx t2).contains u)

/-- Frame section reassignments of one floor of the resync loop, in source
order: gravity roles, then moment-frame roles, then brace roles. -/
def resyncFrameOps (index_for : Index) (floor : String) (frow : FloorRow)
    (mf : Option MFRow) (br : Option BraceRow) : List (Nat × String) :=
  (interTags index_for floor "column").map (fun u => (u, frow.column))
  ++ (interTags index_for floor "girder").map (fun u => (u, frow.girder))
  ++ (interTags index_for floor "beam").map (fun u => (u, frow.beam))
  ++ (match mf with
      | none => []
      | some m =>
        (interTags index_for floor "SFRS_beamX").map (fun u => (u, m.x_beam))
        ++ (interTags index_for floor "SFRS_beamY").map (fun u => (u, m.y_beam))
        ++ (interTags index_for floor "SFRS_columnX").map (fun u => (u, m.x_column))
        ++ (interTags index_for floor "SFRS_columnY").map (fun u => (u, m.y_column)))
  ++ (match br with
      | none => []
      | some b =>
        (interTags index_for floor "SFRS_braceX").map (fun u => (u, b.x_brace))
        ++ (interTags index_for floor "SFRS_braceY").map (fun u => (u, b.y_brace)))

/-- Wall property reassignments of one floor of the resync loop. -/
def resyncWallOps (index_for_walls : Index) (floor : String) (wl : Option WallRow) :
    List (Nat × String) :=
  match wl with
  | none => []
  | some w =>
    (interTags index_for_walls floor "SFRS_wallX").map (fun u => (u, w.x_wall))
    ++ (interTags index_for_walls floor "SFRS_wallY").map (fun u => (u, w.y_wall))

/-- Frame reassignments contributed by loop iteration `i`. -/
def resyncFrameOpsAt (index_for : Index) (floor_names : List String)
    (df_floors : List FloorRow) (df_MF : Option (List MFRow))
    (df_braces : Option (List BraceRow)) (i : Nat) : List (Nat × String) :=
  match floor_names[i]?, df_floors[i]? with
  | some floor, some frow =>
    resyncFrameOps index_for floor frow (df_MF.bind (fun l => l[i]?))
      (df_braces.bind (fun l => l[i]?))
  | _, _ => []

/-- Wall reassignments contributed by loop iteration `i`. -/
def resyncWallOpsAt (index_for_walls : Index) (floor_names : List String)
    (df_walls : Option (List WallRow)) (i : Nat) : List (Nat × String) :=
  match floor_names[i]? with
  | some floor => resyncWallOps index_for_walls floor (df_walls.bind (fun l => l[i]?))
  | none => []

/-- All reassignments of the resync pass (frame ops, wall ops), floors in
order, computed from the loaded indices and the freshly parsed tables only. -/
def resyncOps (index_for index_for_walls : Index) (floor_names : List String)
    (df_floors : List FloorRow) (df_MF : Option (List MFRow))
    (df_braces : Option (List BraceRow)) (df_walls : Option (List WallRow)) :
    List (Nat × String) × List (Nat × String) :=
  ((List.range floor_names.length).flatMap
      (resyncFrameOpsAt index_for floor_names df_floors df_MF df_braces),
   (List.range floor_names.length).flatMap
      (resyncWallOpsAt index_for_walls floor_names df_walls))

/-- Apply `FrameObj.SetSection` calls in order. -/
def applySetSections (sap : SapState) (ops : List (Nat × String)) : SapState :=
  ops.foldl (fun s op => s.setSection op.1 op.2) sap

/-- Apply `AreaObj.SetProperty` calls in order. -/
def applySetWallProps (sap : SapState) (ops : List (Nat × String)) : SapState :=
  ops.foldl (fun s op => s.setWallProperty op.1 op.2) sap

/-- The resync pass: pure section reassignment through the sink; the loaded
indices are returned untouched (the source never writes them). -/
def resync (index_for index_for_walls : Index) (floor_names : List String)
    (df_floors : List FloorRow) (df_MF : Option (List MFRow))
    (df_braces : Option (List BraceRow)) (df_walls : Option (List WallRow))
    (sap : SapState) : SapState × Index × Index :=
  let ops := resyncOps index_for index_for_walls floor_names df_floors df_MF
      df_braces df_walls
  (applySetWallProps (applySetSections sap ops.1) ops.2, index_for, index_for_walls)

/-! ### Concrete instances

A two-by-two grid with one floor, exercised end to end: `create_frames`
produces columns 1-4, X girders 5-6, Y girders 7-8; the floor boundary is a
strip covering only the `y = 0` grid line, so trimming deletes ids
2, 4, 6, 7, 8. -/

/-- One-floor `df_floors` table (elevation 12 ft, height 12 ft). -/
def egFloors : List FloorRow :=
  [{ floor_name := "Roof", floor_height := 12, floor_elev := 12,
     column := "W14X90", girder := "W24X55", beam := "W16X26" }]

/-- Initial state: grids at 0 and 120 inches on both families, boundary strip
`[-12, 132] × [-12, 12]`. -/
def egS0 : MState :=
  { x_grids := [("1", 0), ("2", 120)]
    y_grids := [("A", 0), ("B", 120)]
    frame_objects := []
    index_for := []
    index_for_walls := []
    floor_objects := [("Roof", [(-12, -12), (132, -12), (132, 12), (-12, 12)])]
    sap := {}
    opts := { enable_REZ := false, n_infill := 0 } }

/-- State after the lattice generation. -/
def egS1 : MState := create_frames egS0 egFloors

/-- State after the boundary trimming pass. -/
def egS2 : MState := delete_frames egS1 ["Roof"]

/-- A moment-frame section row. -/
def egMF : MFRow :=
  { x_column := "MFCX", x_beam := "MFBX", y_column := "MFCY", y_beam := "MFBY" }

/-- A brace section/config row. -/
def egBrace : BraceRow :=
  { x_brace := "HSS6", x_config := "SingleA", y_brace := "HSS7", y_config := "V" }

/-- A wall thickness row. -/
def egWall : WallRow := { x_wall := "W12", y_wall := "W14" }

/-- State after classifying the bay `2;A-B` (whose members were all deleted
by the trimmer) as a moment frame. -/
def egS3 : MState :=
  (add_MFs egS2 [{ floor_name := "Roof", bays := [some "2;A-B"] }] [egMF]).1

/-- Variant of the initial state with two infill beams per bay: the lattice
additionally creates infill beams 9 and 10. -/
def egSI : MState :=
  create_frames { egS0 with opts := { enable_REZ := false, n_infill := 2 } } egFloors

/-- U-shaped (non-convex) floor polygon. -/
def uPoly : List P2 := [(0, 0), (6, 0), (6, 6), (4, 6), (4, 2), (2, 2), (2, 6), (0, 6)]

/-- A member whose projected endpoints `(1,4)` and `(5,4)` both lie strictly
inside `uPoly` while the segment between them crosses the notch. -/
def frU : Frame :=
  { frame_type := "beam", story := "F1", sect := "W16X26",
    end_coords := ((1, 4, 100), (5, 4, 100)), unique_name := 1 }

/-- Trimming state holding only `frU` on floor `F1` bounded by `uPoly`. -/
def SU : MState :=
  { x_grids := []
    y_grids := []
    frame_objects := [(1, frU)]
    index_for := indexAdd (init_index_groups ["F1"] [] []) "F1" 1
    index_for_walls := []
    floor_objects := [("F1", uPoly)]
    sap := {}
    opts := { enable_REZ := false, n_infill := 0 } }

/-- A member leaving the square floor `[0,6] × [0,6]` through one endpoint. -/
def frSq : Frame :=
  { frame_type := "beam", story := "F1", sect := "W16X26",
    end_coords := ((1, 1, 100), (7, 1, 100)), unique_name := 1 }

/-- Trimming state holding only `frSq` on a square floor. -/
def SSq : MState :=
  { x_grids := []
    y_grids := []
    frame_objects := [(1, frSq)]
    index_for := indexAdd (init_index_groups ["F1"] [] []) "F1" 1
    index_for_walls := []
    floor_objects := [("F1", [(0, 0), (6, 0), (6, 6), (0, 6)])]
    sap := {}
    opts := { enable_REZ := false, n_infill := 0 } }

/-- The bay resolution produced by `resolveBayBraces` for descriptor
`1;A-B` over the example grids. -/
def egRes : BayResolution :=
  { frame_direction := "X", abscissa := 0, ordinate_range := [0, 120],
    brace_section := "HSS6", brace_config := "SingleA" }

/-- Projected segment of the frame a member id currently denotes. -/
def segOf (S : MState) (uid : Nat) : Option (P2 × P2) :=
  (fobjGet S.frame_objects uid).map projSeg

/-! ### Predicates used in specifications -/

/-- The tag key exists in the index (all keys are pre-created by
`init_index_groups`). -/
def hasTag (idx : Index) (tag : String) : Bool :=
  (idx.find? (fun kv => kv.1 == tag)).isSome

/-- The tag is a grid-line tag (`"on " ++ label`). -/
def isOnTag (tag : String) : Bool := "on ".data.isPrefixOf tag.data

/-- The id appears in no grid-line tag of the index. -/
def notInAnyOnTag (idx : Index) (uid : Nat) : Bool :=
  idx.all (fun kv => !(isOnTag kv.1) || !(kv.2.contains uid))

/-- The member's frame object and all its tag memberships are unchanged
between two states, and it still appears in no grid-line tag. -/
def framePreserved (S0 St : MState) (uid : Nat) : Prop :=
  fobjGet St.frame_objects uid = fobjGet S0.frame_objects uid
  ∧ (∀ tag, uid ∈ indexGet St.index_for tag ↔ uid ∈ indexGet S0.index_for tag)
  ∧ notInAnyOnTag St.index_for uid = true

/-! ### Shared lemmas: association lists and the tag index -/

theorem alookup_cons {α : Type} (k k' : Nat) (v : α) (m : List (Nat × α)) :
    alookup ((k', v) :: m) k = if k' = k then some v else alookup m k := by
  by_cases h : k' = k
  · have hb : (k' == k) = true := beq_iff_eq.mpr h
    simp [alookup, List.find?, hb, h]
  · have hb : (k' == k) = false := beq_eq_false_iff_ne.mpr h
    simp [alookup, List.find?, hb, h]

theorem alookup_append {α : Type} (l1 l2 : List (Nat × α)) (k : Nat) :
    alookup (l1 ++ l2) k =
      match alookup l1 k with
      | some v => some v
      | none => alookup l2 k := by
  induction l1 with
  | nil => simp [alookup]
  | cons kv l1 ih =>
    rcases kv with ⟨k', v⟩
    rw [List.cons_append, alookup_cons, alookup_cons]
    by_cases h : k' = k
    · simp [h]
    · simp [h, ih]

theorem indexGet_nil (tag : String) : indexGet [] tag = [] := rfl

theorem indexGet_cons (key : String) (v : List Nat) (idx : Index) (tag : String) :
    indexGet ((key, v) :: idx) tag = if key = tag then v else indexGet idx tag := by
  by_cases h : key = tag
  · have hb : (key == tag) = true := beq_iff_eq.mpr h
    simp [indexGet, List.find?, hb, h]
  · have hb : (key == tag) = false := beq_eq_false_iff_ne.mpr h
    simp [indexGet, List.find?, hb, h]

theorem hasTag_cons (key : String) (v : List Nat) (idx : Index) (tag : String) :
    hasTag ((key, v) :: idx) tag = if key = tag then true else hasTag idx tag := by
  by_cases h : key = tag
  · have hb : (key == tag) = true := beq_iff_eq.mpr h
    simp [hasTag, List.find?, hb, h]
  · have hb : (key == tag) = false := beq_eq_false_iff_ne.mpr h
    simp [hasTag, List.find?, hb, h]

theorem indexAdd_cons (key : String) (v : List Nat) (idx : Index) (tag : String)
    (uid : Nat) :
    indexAdd ((key, v) :: idx) tag uid =
      (key, if key = tag then v ++ [uid] else v) :: indexAdd idx tag uid := by
  by_cases h : key = tag
  · have hb : (key == tag) = true := beq_iff_eq.mpr h
    simp [indexAdd, hb, h]
  · have hb : (key == tag) = false := beq_eq_false_iff_ne.mpr h
    simp [indexAdd, hb, h]

theorem indexGet_indexAdd_ne (idx : Index) (t : String) (u : Nat) (tag : String)
    (h : tag ≠ t) : indexGet (indexAdd idx t u) tag = indexGet idx tag := by
  induction idx with
  | nil => rfl
  | cons kv idx ih =>
    rcases kv with ⟨key, v⟩
    rw [indexAdd_cons, indexGet_cons, indexGet_cons]
    by_cases hk : key = tag
    · have hkt : ¬(key = t) := by rw [hk]; exact h
      simp only [if_pos hk, if_neg hkt]
    · simp only [if_neg hk]
      exact ih

theorem indexGet_indexAdd_self (idx : Index) (t : String) (u : Nat)
    (h : hasTag idx t = true) :
    indexGet (indexAdd idx t u) t = indexGet idx t ++ [u] := by
  induction idx with
  | nil => simp [hasTag] at h
  | cons kv idx ih =>
    rcases kv with ⟨key, v⟩
    rw [indexAdd_cons, indexGet_cons, indexGet_cons]
    by_cases hk : key = t
    · simp only [if_pos hk]
    · simp only [if_neg hk]
      rw [hasTag_cons, if_neg hk] at h
      exact ih h

theorem indexAdd_of_not_hasTag (idx : Index) (t : String) (u : Nat)
    (h : hasTag idx t = false) : indexAdd idx t u = idx := by
  induction idx with
  | nil => rfl
  | cons kv idx ih =>
    rcases kv with ⟨key, v⟩
    rw [hasTag_cons] at h
    by_cases hk : key = t
    · simp [hk] at h
    · rw [indexAdd_cons, if_neg hk, ih (by simpa [hk] using h)]

theorem hasTag_indexAdd (idx : Index) (t : String) (u : Nat) (tag : String) :
    hasTag (indexAdd idx t u) tag = hasTag idx tag := by
  induction idx with
  | nil => rfl
  | cons kv idx ih =>
    rcases kv with ⟨key, v⟩
    rw [indexAdd_cons, hasTag_cons, hasTag_cons, ih]

theorem mem_indexGet_indexAdd (idx : Index) (t : String) (u u' : Nat) (tag : String) :
    u' ∈ indexGet (indexAdd idx t u) tag ↔
      u' ∈ indexGet idx tag ∨ (u' = u ∧ tag = t ∧ hasTag idx t = true) := by
  by_cases ht : tag = t
  · subst ht
    by_cases hh : hasTag idx tag = true
    · rw [indexGet_indexAdd_self idx tag u hh]
      simp only [List.mem_append, List.mem_singleton, hh]
      tauto
    · rw [indexAdd_of_not_hasTag idx tag u (by simpa using hh)]
      simp [hh]
  · rw [indexGet_indexAdd_ne idx t u tag ht]
    simp [ht]

theorem indexSetSub_cons (key : String) (v : List Nat) (idx : Index) (t : String)
    (dels : List Nat) :
    indexSetSub ((key, v) :: idx) t dels =
      (key, if key = t then v.filter (fun u => !(dels.contains u)) else v)
        :: indexSetSub idx t dels := by
  by_cases h : key = t
  · have hb : (key == t) = true := beq_iff_eq.mpr h
    simp [indexSetSub, hb, h]
  · have hb : (key == t) = false := beq_eq_false_iff_ne.mpr h
    simp [indexSetSub, hb, h]

theorem indexGet_indexSetSub_self (idx : Index) (t : String) (dels : List Nat) :
    indexGet (indexSetSub idx t dels) t =
      (indexGet idx t).filter (fun u => !(dels.contains u)) := by
  induction idx with
  | nil => rfl
  | cons kv idx ih =>
    rcases kv with ⟨key, v⟩
    rw [indexSetSub_cons, indexGet_cons, indexGet_cons]
    by_cases hk : key = t
    · simp only [if_pos hk]
    · simp only [if_neg hk]
      exact ih

theorem indexGet_indexSetSub_ne (idx : Index) (t : String) (dels : List Nat)
    (tag : String) (h : tag ≠ t) :
    indexGet (indexSetSub idx t dels) tag = indexGet idx tag := by
  induction idx with
  | nil => rfl
  | cons kv idx ih =>
    rcases kv with ⟨key, v⟩
    rw [indexSetSub_cons, indexGet_cons, indexGet_cons]
    by_cases hk : key = tag
    · have hkt : ¬(key = t) := by rw [hk]; exact h
      simp only [if_pos hk, if_neg hkt]
    · simp only [if_neg hk]
      exact ih

theorem fobjGet_fmapSet_ne (m : List (Nat × Frame)) (uid uid' : Nat) (f : Frame)
    (h : uid ≠ uid') : fobjGet (fmapSet m uid' f) uid = fobjGet m uid := by
  induction m with
  | nil => rfl
  | cons kv m ih =>
    rcases kv with ⟨k, v⟩
    by_cases hk : k = uid'
    · have hb : (k == uid') = true := beq_iff_eq.mpr hk
      have hku : (k == uid) = false := by
        refine beq_eq_false_iff_ne.mpr ?_
        rw [hk]
        exact fun hh => h hh.symm
      simp only [fmapSet, List.map, hb, if_pos, fobjGet, List.find?, hku]
      simpa [fobjGet, fmapSet] using ih
    · have hb : (k == uid') = false := beq_eq_false_iff_ne.mpr hk
      simp only [fmapSet, List.map, hb, Bool.false_eq_true, if_false]
      by_cases hku : k = uid
      · have hbu : (k == uid) = true := beq_iff_eq.mpr hku
        simp [fobjGet, List.find?, hbu]
      · have hbu : (k == uid) = false := beq_eq_false_iff_ne.mpr hku
        simp only [fobjGet, List.find?, hbu]
        simpa [fobjGet, fmapSet] using ih

/-! ### Shared lemmas: geometry -/

theorem mem_insertRat (x y : ℚ) (l : List ℚ) :
    y ∈ insertRat x l ↔ y ∈ x :: l := by
  induction l with
  | nil => simp [insertRat]
  | cons z l ih =>
    simp only [insertRat]
    by_cases h : x ≤ z
    · simp [h]
    · simp only [if_neg h, List.mem_cons, ih]
      tauto

theorem mem_sortRats (x : ℚ) (l : List ℚ) : x ∈ sortRats l ↔ x ∈ l := by
  induction l with
  | nil => simp [sortRats]
  | cons y l ih =>
    simp only [sortRats, mem_insertRat, List.mem_cons, ih]

theorem pointAt_zero (u v : P2) : pointAt u v 0 = u := by
  simp [pointAt]

theorem pointAt_one (u v : P2) : pointAt u v 1 = v := by
  simp [pointAt]

/-- A segment with an endpoint outside the closed polygon region is not
covered: the splitting-parameter list always contains 0 and 1, so the
endpoint itself is among the tested points. -/
theorem not_covered_of_endpoint_outside (vs : List P2) (u v : P2)
    (h : pointInPoly u vs = false ∨ pointInPoly v vs = false) :
    polygonCoversSeg vs u v = false := by
  simp only [polygonCoversSeg, Bool.and_eq_false_iff]
  left
  rw [List.all_eq_false]
  rcases h with h | h
  · refine ⟨0, ?_, ?_⟩
    · rw [mem_sortRats]
      simp
    · simp [pointAt_zero, h]
  · refine ⟨1, ?_, ?_⟩
    · rw [mem_sortRats]
      simp
    · simp [pointAt_one, h]

/-! ### Shared lemmas: generated member counts -/

theorem flatMap_const_length {α β : Type} (l : List α) (f : α → List β) (c : Nat)
    (h : ∀ x, (f x).length = c) : (l.flatMap f).length = c * l.length := by
  induction l with
  | nil => simp
  | cons x l ih =>
    simp only [List.flatMap_cons, List.length_append, ih, h x, List.length_cons]
    ring

theorem subBays_length (ordinate_range : List ℚ) :
    (subBays ordinate_range).length = ordinate_range.length - 1 := by
  simp only [subBays, List.length_zip, List.length_tail]
  omega

theorem applyBraceList_go_length (frs : List Frame) (fn og ig dir : String)
    (acc : List Frame) (S : MState) :
    (frs.foldl
      (fun acc fr =>
        let r := applyBraceProps acc.2 fr fn og ig dir
        (acc.1 ++ [r.1], r.2))
      (acc, S)).1.length = acc.length + frs.length := by
  induction frs generalizing acc S with
  | nil => simp
  | cons fr frs ih =>
    rw [List.foldl_cons, ih]
    simp only [List.length_append, List.length_cons, List.length_nil]
    omega

theorem applyBraceList_length (S : MState) (frs : List Frame) (fn og ig dir : String) :
    (applyBraceList S frs fn og ig dir).1.length = frs.length := by
  simpa [applyBraceList] using applyBraceList_go_length frs fn og ig dir [] S

theorem singleAFrames_length (fn dir : String) (ab : ℚ) (ordinate_range : List ℚ)
    (bs : String) (zc zb : ℚ) :
    (singleAFrames fn dir ab ordinate_range bs zc zb).length =
      (subBays ordinate_range).length := by
  unfold singleAFrames
  rw [flatMap_const_length _ _ 1, Nat.one_mul]
  intro p
  rfl

theorem singleBFrames_length (fn dir : String) (ab : ℚ) (ordinate_range : List ℚ)
    (bs : String) (zc zb : ℚ) :
    (singleBFrames fn dir ab ordinate_range bs zc zb).length =
      (subBays ordinate_range).length := by
  unfold singleBFrames
  rw [flatMap_const_length _ _ 1, Nat.one_mul]
  intro p
  rfl

theorem vFrames_length (fn dir : String) (ab : ℚ) (ordinate_range : List ℚ)
    (bs : String) (zc zb : ℚ) :
    (vFrames fn dir ab ordinate_range bs zc zb).length =
      2 * (subBays ordinate_range).length := by
  unfold vFrames
  rw [flatMap_const_length _ _ 2]
  intro p
  simp only [List.length_map]
  split <;> rfl

theorem chevronFrames_length (fn dir : String) (ab : ℚ) (ordinate_range : List ℚ)
    (bs : String) (zc zb : ℚ) :
    (chevronFrames fn dir ab ordinate_range bs zc zb).length =
      2 * (subBays ordinate_range).length := by
  unfold chevronFrames
  rw [flatMap_const_length _ _ 2]
  intro p
  simp only [List.length_map]
  split <;> rfl

theorem xFrames_length (fn dir : String) (ab : ℚ) (ordinate_range : List ℚ)
    (bs : String) (zc zb : ℚ) :
    (xFrames fn dir ab ordinate_range bs zc zb).length =
      4 * (subBays ordinate_range).length := by
  unfold xFrames
  rw [flatMap_const_length _ _ 4]
  intro p
  simp only [List.length_map]
  split <;> rfl

theorem columnPairs_length (xg yg : Grids) :
    (columnPairs xg yg).length = yg.length * xg.length := by
  unfold columnPairs
  rw [flatMap_const_length _ _ xg.length, Nat.mul_comm]
  intro p
  simp

theorem createColumnsFloor_go_map (ps : List ((String × ℚ) × (String × ℚ)))
    (floor_name col_section : String) (zc zb : ℚ) (acc : List Frame) (S : MState) :
    ((ps.foldl
        (fun acc p =>
          let r := createColumn floor_name col_section zc zb acc.2 p
          (acc.1 ++ [r.1], r.2))
        (acc, S)).1.map (fun f => (f.frame_type, f.story, f.sect, f.end_coords)))
      = acc.map (fun f => (f.frame_type, f.story, f.sect, f.end_coords))
        ++ ps.map (fun p =>
            ("column", floor_name, col_section,
              ((p.1.2, p.2.2, zb), (p.1.2, p.2.2, zc)))) := by
  induction ps generalizing acc S with
  | nil => simp
  | cons p ps ih =>
    rw [List.foldl_cons, ih]
    simp [createColumn, Frame.add_by_coord]

/-- C9: for every state and floor row, the lattice generator's column pass
creates exactly (number of X-family grids) times (number of Y-family grids)
columns, one per (x-grid, y-grid) intersection, each spanning vertically from
the floor-below elevation to the floor's elevation and carrying the floor's
column section. -/
theorem C9_columns_per_floor (S : MState) (row : FloorRow) :
    ((createColumnsFloor S row.floor_name row.column (row.floor_elev * 12)
        (row.floor_elev * 12 - row.floor_height * 12)).1.map
        (fun f => (f.frame_type, f.story, f.sect, f.end_coords)))
      = (columnPairs S.x_grids S.y_grids).map (fun p =>
          ("column", row.floor_name, row.column,
            ((p.1.2, p.2.2, row.floor_elev * 12 - row.floor_height * 12),
             (p.1.2, p.2.2, row.floor_elev * 12))))
    ∧ (createColumnsFloor S row.floor_name row.column (row.floor_elev * 12)
        (row.floor_elev * 12 - row.floor_height * 12)).1.length
      = S.x_grids.length * S.y_grids.length := by
  have hmap := createColumnsFloor_go_map (columnPairs S.x_grids S.y_grids)
    row.floor_name row.column (row.floor_elev * 12)
    (row.floor_elev * 12 - row.floor_height * 12) [] S
  constructor
  · simpa [createColumnsFloor] using hmap
  · have hlen : ((createColumnsFloor S row.floor_name row.column (row.floor_elev * 12)
        (row.floor_elev * 12 - row.floor_height * 12)).1.map
        (fun f => (f.frame_type, f.story, f.sect, f.end_coords))).length
        = (columnPairs S.x_grids S.y_grids).length := by
      rw [show ((createColumnsFloor S row.floor_name row.column (row.floor_elev * 12)
        (row.floor_elev * 12 - row.floor_height * 12)).1.map
        (fun f => (f.frame_type, f.story, f.sect, f.end_coords)))
        = (columnPairs S.x_grids S.y_grids).map (fun p =>
          ("column", row.floor_name, row.column,
            ((p.1.2, p.2.2, row.floor_elev * 12 - row.floor_height * 12),
             (p.1.2, p.2.2, row.floor_elev * 12)))) from by
        simpa [createColumnsFloor] using hmap]
      simp
    rw [List.length_map] at hlen
    rw [hlen, columnPairs_length, Nat.mul_comm]

/-- C5: per sub-bay (consecutive ordinate pair of the bay range) the brace
generators produce exactly 1 member for SingleA and SingleB, 2 for V and
Chevron, and 4 for X; and for an X pattern over the sub-bay with ordinates 0
and 120 between elevations 0 and 144, all four generated braces share the
crossing endpoint at ordinate 60 and elevation 72. -/
theorem C5_brace_counts_and_X_geometry :
    (∀ (S : MState) (fn dir : String) (ab : ℚ) (ordinate_range : List ℚ)
        (bs : String) (zc zb : ℚ) (og : String),
      (add_braces_singleA S fn dir ab ordinate_range bs zc zb og).1.length
          = ordinate_range.length - 1
      ∧ (add_braces_singleB S fn dir ab ordinate_range bs zc zb og).1.length
          = ordinate_range.length - 1
      ∧ (add_braces_V S fn dir ab ordinate_range bs zc zb og).1.length
          = 2 * (ordinate_range.length - 1)
      ∧ (add_braces_chevron S fn dir ab ordinate_range bs zc zb og).1.length
          = 2 * (ordinate_range.length - 1)
      ∧ (add_braces_X S fn dir ab ordinate_range bs zc zb og).1.length
          = 4 * (ordinate_range.length - 1))
    ∧ (add_braces_X egS2 "Roof" "X" 0 [0, 120] "HSS6" 144 0 "1").1.length = 4
    ∧ ((add_braces_X egS2 "Roof" "X" 0 [0, 120] "HSS6" 144 0 "1").1.all
        (fun fr => decide (fr.end_coords.1 = ((60 : ℚ), (0 : ℚ), (72 : ℚ)))
          || decide (fr.end_coords.2 = ((60 : ℚ), (0 : ℚ), (72 : ℚ))))) = true := by
  refine ⟨?_, ?_, ?_⟩
  · intro S fn dir ab ordinate_range bs zc zb og
    refine ⟨?_, ?_, ?_, ?_, ?_⟩
    · rw [add_braces_singleA, applyBraceList_length, singleAFrames_length, subBays_length]
    · rw [add_braces_singleB, applyBraceList_length, singleBFrames_length, subBays_length]
    · rw [add_braces_V, applyBraceList_length, vFrames_length, subBays_length]
    · rw [add_braces_chevron, applyBraceList_length, chevronFrames_length, subBays_length]
    · rw [add_braces_X, applyBraceList_length, xFrames_length, subBays_length]
  · with_unfolding_all decide
  · with_unfolding_all decide

/-! ### Shared lemmas: resync -/

theorem applySetSections_eq (sap : SapState) (ops : List (Nat × String)) :
    applySetSections sap ops = { sap with sections := ops.reverse ++ sap.sections } := by
  induction ops generalizing sap with
  | nil => rfl
  | cons op ops ih =>
    rw [applySetSections, List.foldl_cons]
    rw [show (ops.foldl (fun s op => s.setSection op.1 op.2)
        (sap.setSection op.1 op.2)) = applySetSections (sap.setSection op.1 op.2) ops
      from rfl]
    rw [ih]
    simp [SapState.setSection]

theorem applySetWallProps_eq (sap : SapState) (ops : List (Nat × String)) :
    applySetWallProps sap ops
      = { sap with wall_sections := ops.reverse ++ sap.wall_sections } := by
  induction ops generalizing sap with
  | nil => rfl
  | cons op ops ih =>
    rw [applySetWallProps, List.foldl_cons]
    rw [show (ops.foldl (fun s op => s.setWallProperty op.1 op.2)
        (sap.setWallProperty op.1 op.2)) = applySetWallProps (sap.setWallProperty op.1 op.2) ops
      from rfl]
    rw [ih]
    simp [SapState.setWallProperty]

theorem alookup_idem (R M : List (Nat × String)) (uid : Nat) :
    alookup (R ++ (R ++ M)) uid = alookup (R ++ M) uid := by
  rw [alookup_append, alookup_append]
  rcases h : alookup R uid with _ | v
  · simp [h]
  · simp [h]

theorem mem_resyncFrameOps (idx : Index) (floor : String) (frow : FloorRow)
    (mf : Option MFRow) (br : Option BraceRow) (op : Nat × String)
    (hop : op ∈ resyncFrameOps idx floor frow mf br) :
    ∃ role, op.1 ∈ interTags idx floor role := by
  have finish : ∀ (role sec : String),
      (∃ u ∈ interTags idx floor role, (u, sec) = op) →
      ∃ role2, op.1 ∈ interTags idx floor role2 := by
    rintro role sec ⟨u, hu, hequ⟩
    refine ⟨role, ?_⟩
    rw [← hequ]
    exact hu
  unfold resyncFrameOps at hop
  rcases mf with _ | m <;> rcases br with _ | b
  · simp only [List.mem_append, List.mem_map, List.not_mem_nil, or_false,
      false_or] at hop
    rcases hop with (h | h) | h
    exacts [finish _ _ h, finish _ _ h, finish _ _ h]
  · simp only [List.mem_append, List.mem_map, List.not_mem_nil, or_false,
      false_or] at hop
    rcases hop with ((h | h) | h) | (h | h)
    exacts [finish _ _ h, finish _ _ h, finish _ _ h, finish _ _ h, finish _ _ h]
  · simp only [List.mem_append, List.mem_map, List.not_mem_nil, or_false,
      false_or] at hop
    rcases hop with ((h | h) | h) | (((h | h) | h) | h)
    exacts [finish _ _ h, finish _ _ h, finish _ _ h, finish _ _ h, finish _ _ h,
      finish _ _ h, finish _ _ h]
  · simp only [List.mem_append, List.mem_map, List.not_mem_nil, or_false,
      false_or] at hop
    rcases hop with (((h | h) | h) | (((h | h) | h) | h)) | (h | h)
    exacts [finish _ _ h, finish _ _ h, finish _ _ h, finish _ _ h, finish _ _ h,
      finish _ _ h, finish _ _ h, finish _ _ h, finish _ _ h]

/-- C6: the resync pass only reassigns sections to ids drawn from
floor-tag ∩ role-tag intersections of the loaded index; it changes no tag
membership, no geometry, no releases, and creates no ids; and a second
invocation with the same tables leaves every section lookup (and the indices
and id count) exactly as after the first. -/
theorem C6_resync_pure_and_idempotent (idx idxw : Index) (floors : List String)
    (dfF : List FloorRow) (dfMF : Option (List MFRow)) (dfBr : Option (List BraceRow))
    (dfW : Option (List WallRow)) (sap : SapState) :
    (resync idx idxw floors dfF dfMF dfBr dfW sap).2.1 = idx
    ∧ (resync idx idxw floors dfF dfMF dfBr dfW sap).2.2 = idxw
    ∧ (resync idx idxw floors dfF dfMF dfBr dfW sap).1.next_uid = sap.next_uid
    ∧ (resync idx idxw floors dfF dfMF dfBr dfW sap).1.created = sap.created
    ∧ (resync idx idxw floors dfF dfMF dfBr dfW sap).1.next_wall_uid = sap.next_wall_uid
    ∧ (resync idx idxw floors dfF dfMF dfBr dfW sap).1.wall_created = sap.wall_created
    ∧ (resync idx idxw floors dfF dfMF dfBr dfW sap).1.coords = sap.coords
    ∧ (resync idx idxw floors dfF dfMF dfBr dfW sap).1.releases = sap.releases
    ∧ (resync idx idxw floors dfF dfMF dfBr dfW sap).1.angles = sap.angles
    ∧ (resync idx idxw floors dfF dfMF dfBr dfW sap).1.removed = sap.removed
    ∧ (∀ op ∈ (resyncOps idx idxw floors dfF dfMF dfBr dfW).1,
        ∃ floor role, floor ∈ floors ∧ op.1 ∈ interTags idx floor role)
    ∧ (∀ uid, alookup (resync idx idxw floors dfF dfMF dfBr dfW
            (resync idx idxw floors dfF dfMF dfBr dfW sap).1).1.sections uid
        = alookup (resync idx idxw floors dfF dfMF dfBr dfW sap).1.sections uid)
    ∧ (∀ uid, alookup (resync idx idxw floors dfF dfMF dfBr dfW
            (resync idx idxw floors dfF dfMF dfBr dfW sap).1).1.wall_sections uid
        = alookup (resync idx idxw floors dfF dfMF dfBr dfW sap).1.wall_sections uid) := by
  have hres : ∀ s : SapState, resync idx idxw floors dfF dfMF dfBr dfW s
      = ({ s with
            sections := (resyncOps idx idxw floors dfF dfMF dfBr dfW).1.reverse
              ++ s.sections
            wall_sections := (resyncOps idx idxw floors dfF dfMF dfBr dfW).2.reverse
              ++ s.wall_sections }, idx, idxw) := by
    intro s
    rw [resync, applySetSections_eq, applySetWallProps_eq]
  refine ⟨by rw [hres], by rw [hres], by rw [hres], by rw [hres], by rw [hres],
    by rw [hres], by rw [hres], by rw [hres], by rw [hres], by rw [hres], ?_, ?_, ?_⟩
  · intro op hop
    rw [resyncOps] at hop
    rcases List.mem_flatMap.mp hop with ⟨i, hi, hopi⟩
    rw [resyncFrameOpsAt] at hopi
    rcases hf : floors[i]? with _ | floor
    · rw [hf] at hopi
      simp at hopi
    · rcases hrow : dfF[i]? with _ | frow
      · rw [hf, hrow] at hopi
        simp at hopi
      · rw [hf, hrow] at hopi
        simp only at hopi
        rcases mem_resyncFrameOps idx floor frow _ _ op hopi with ⟨role, hrole⟩
        exact ⟨floor, role, List.getElem?_mem hf, hrole⟩
  · intro uid
    rw [hres, hres]
    exact alookup_idem _ _ uid
  · intro uid
    rw [hres, hres]
    exact alookup_idem _ _ uid

/-! ### Shared lemmas: bay resolution and error propagation -/

theorem selectBraceGenerator_empty_range (key : String)
    (gen : MState → String → String → ℚ → List ℚ → String → ℚ → ℚ → String →
      List Frame × MState)
    (h : selectBraceGenerator key = Except.ok gen) (S : MState)
    (fn dir : String) (ab : ℚ) (bs : String) (zc zb : ℚ) (og : String) :
    gen S fn dir ab [] bs zc zb og = ([], S) := by
  unfold selectBraceGenerator at h
  split at h
  · cases h
    rfl
  · split at h
    · cases h
      rfl
    · split at h
      · cases h
        rfl
      · split at h
        · cases h
          rfl
        · split at h
          · cases h
            rfl
          · cases h

theorem charRangeLabels_empty (s e : Nat) (h : e < s) : charRangeLabels s e = [] := by
  unfold charRangeLabels
  rw [show e + 1 - s = 0 from by omega]
  rfl

theorem intRangeLabels_empty (s e : Nat) (h : e < s) : intRangeLabels s e = [] := by
  unfold intRangeLabels
  rw [show e + 1 - s = 0 from by omega]
  rfl

theorem exbind_ok {α β : Type} (a : α) (f : α → Except Err β) :
    (Except.ok a >>= f) = f a := rfl

theorem exbind_error {α β : Type} (e : Err) (f : α → Except Err β) :
    ((Except.error e : Except Err α) >>= f) = Except.error e := rfl

theorem gridLookupE_some (g : Grids) (label : String) (v : ℚ)
    (h : gridFind g label = some v) : gridLookupE g label = Except.ok v := by
  unfold gridLookupE
  rw [h]

theorem gridMem_exists (g : Grids) (label : String) (h : gridMem g label = true) :
    ∃ v, gridFind g label = some v := by
  unfold gridMem at h
  exact Option.isSome_iff_exists.mp h

theorem resolveBayMF_comm (xg yg : Grids) (gf gt : String)
    (h : (gridMem xg gf = true ∧ gridMem xg gt = true)
       ∨ (gridMem xg gf = false ∧ gridMem xg gt = false
          ∧ gridMem yg gf = true ∧ gridMem yg gt = true)) :
    resolveBayMF xg yg gf gt = resolveBayMF xg yg gt gf := by
  rcases h with ⟨hf, ht⟩ | ⟨hf, ht, hf2, ht2⟩
  · rcases gridMem_exists xg gf hf with ⟨a, hfv⟩
    rcases gridMem_exists xg gt ht with ⟨b, htv⟩
    unfold resolveBayMF
    rw [if_pos hf, if_pos ht, gridLookupE_some xg gf a hfv,
      gridLookupE_some xg gt b htv, exbind_ok, exbind_ok, exbind_ok, exbind_ok,
      min_comm, max_comm]
  · rcases gridMem_exists yg gf hf2 with ⟨a, hfv⟩
    rcases gridMem_exists yg gt ht2 with ⟨b, htv⟩
    unfold resolveBayMF
    rw [if_neg (by rw [hf]; exact Bool.false_ne_true),
      if_neg (by rw [ht]; exact Bool.false_ne_true),
      gridLookupE_some yg gf a hfv, gridLookupE_some yg gt b htv,
      exbind_ok, exbind_ok, exbind_ok, exbind_ok, min_comm, max_comm]

theorem resolveBayMF_direction (xg yg : Grids) (gf gt : String) (lo hi : ℚ)
    (dir : String) (h : resolveBayMF xg yg gf gt = Except.ok (lo, hi, dir)) :
    dir = if gridMem xg gf then "Y" else "X" := by
  unfold resolveBayMF at h
  by_cases hm : gridMem xg gf = true
  · rw [if_pos hm] at h
    rw [if_pos hm]
    rcases h1 : gridLookupE xg gf with e | v1
    · rw [h1, exbind_error] at h
      cases h
    · rcases h2 : gridLookupE xg gt with e | v2
      · rw [h1, exbind_ok, h2, exbind_error] at h
        cases h
      · rw [h1, exbind_ok, h2, exbind_ok] at h
        cases h
        rfl
  · rw [if_neg hm] at h
    rw [if_neg hm]
    rcases h1 : gridLookupE yg gf with e | v1
    · rw [h1, exbind_error] at h
      cases h
    · rcases h2 : gridLookupE yg gt with e | v2
      · rw [h1, exbind_ok, h2, exbind_error] at h
        cases h
      · rw [h1, exbind_ok, h2, exbind_ok] at h
        cases h
        rfl

theorem resolveBayBraces_direction (xg yg : Grids) (row : BraceRow)
    (gon gf gt : String) (res : BayResolution)
    (h : resolveBayBraces xg yg row gon gf gt = Except.ok res) :
    res.frame_direction = if gridMem xg gon then "X" else "Y" := by
  unfold resolveBayBraces at h
  split at h
  · rename_i a hfind
    have hm : gridMem xg gon = true := by
      rw [gridMem, hfind]
      rfl
    rw [hm, if_pos rfl]
    rcases h1 : ordOf gf with e | s
    · rw [h1, exbind_error] at h
      cases h
    · rw [h1, exbind_ok] at h
      rcases h2 : ordOf gt with e | t
      · rw [h2, exbind_error] at h
        cases h
      · rw [h2, exbind_ok] at h
        rcases h3 : (charRangeLabels s t).mapM (gridLookupE yg) with e | ords
        · rw [h3, exbind_error] at h
          cases h
        · rw [h3, exbind_ok] at h
          cases h
          rfl
  · rename_i hfind
    have hm : gridMem xg gon = false := by
      rw [gridMem, hfind]
      rfl
    rw [hm]
    simp only [Bool.false_eq_true, if_false]
    rcases h0 : gridLookupE yg gon with e | ab
    · rw [h0, exbind_error] at h
      cases h
    · rw [h0, exbind_ok] at h
      rcases h1 : intOf gf with e | s
      · rw [h1, exbind_error] at h
        cases h
      · rw [h1, exbind_ok] at h
        rcases h2 : intOf gt with e | t
        · rw [h2, exbind_error] at h
          cases h
        · rw [h2, exbind_ok] at h
          rcases h3 : (intRangeLabels s t).mapM (gridLookupE xg) with e | ords
          · rw [h3, exbind_error] at h
            cases h
          · rw [h3, exbind_ok] at h
            cases h
            rfl

theorem mem_indexGet_mono (idx : Index) (t : String) (u' : Nat) (tag : String)
    (u : Nat) (h : u ∈ indexGet idx tag) : u ∈ indexGet (indexAdd idx t u') tag :=
  (mem_indexGet_indexAdd idx t u' u tag).mpr (Or.inl h)

theorem applyBraceProps_spec (S : MState) (fr : Frame) (fn og ig dir : String) :
    (applyBraceProps S fr fn og ig dir).1.frame_direction = some dir
    ∧ (∀ tag, hasTag ((applyBraceProps S fr fn og ig dir).2).index_for tag
        = hasTag S.index_for tag)
    ∧ (∀ tag w, w ∈ indexGet S.index_for tag →
        w ∈ indexGet ((applyBraceProps S fr fn og ig dir).2).index_for tag)
    ∧ (hasTag S.index_for ig = true →
        (applyBraceProps S fr fn og ig dir).1.unique_name
          ∈ indexGet ((applyBraceProps S fr fn og ig dir).2).index_for ig) := by
  refine ⟨rfl, ?_, ?_, ?_⟩
  · intro tag
    show hasTag (indexAdd (indexAdd (indexAdd (indexAdd S.index_for fn
      (fr.add_by_coord S.sap).1.unique_name) ("on " ++ og)
      (fr.add_by_coord S.sap).1.unique_name) "SFRS"
      (fr.add_by_coord S.sap).1.unique_name) ig
      (fr.add_by_coord S.sap).1.unique_name) tag = hasTag S.index_for tag
    simp only [hasTag_indexAdd]
  · intro tag w hw
    exact mem_indexGet_mono _ _ _ _ _ (mem_indexGet_mono _ _ _ _ _
      (mem_indexGet_mono _ _ _ _ _ (mem_indexGet_mono _ _ _ _ _ hw)))
  · intro hasg
    show (fr.add_by_coord S.sap).1.unique_name
      ∈ indexGet (indexAdd (indexAdd (indexAdd (indexAdd S.index_for fn
        (fr.add_by_coord S.sap).1.unique_name) ("on " ++ og)
        (fr.add_by_coord S.sap).1.unique_name) "SFRS"
        (fr.add_by_coord S.sap).1.unique_name) ig
        (fr.add_by_coord S.sap).1.unique_name) ig
    rw [indexGet_indexAdd_self _ ig _ (by simp only [hasTag_indexAdd]; exact hasg)]
    simp

theorem applyBraceList_go_spec (frs : List Frame) (fn og ig dir : String) :
    ∀ (acc : List Frame) (S : MState),
      hasTag S.index_for ig = true →
      (∀ fr ∈ acc, fr.frame_direction = some dir
        ∧ fr.unique_name ∈ indexGet S.index_for ig) →
      (∀ fr ∈ (frs.foldl
          (fun acc fr =>
            let r := applyBraceProps acc.2 fr fn og ig dir
            (acc.1 ++ [r.1], r.2))
          (acc, S)).1,
        fr.frame_direction = some dir
        ∧ fr.unique_name ∈ indexGet ((frs.foldl
            (fun acc fr =>
              let r := applyBraceProps acc.2 fr fn og ig dir
              (acc.1 ++ [r.1], r.2))
            (acc, S)).2).index_for ig) := by
  induction frs with
  | nil =>
    intro acc S _ hacc
    simpa using hacc
  | cons fr frs ih =>
    intro acc S htag hacc
    rw [List.foldl_cons]
    have hspec := applyBraceProps_spec S fr fn og ig dir
    refine ih (acc ++ [(applyBraceProps S fr fn og ig dir).1])
      ((applyBraceProps S fr fn og ig dir).2) ?_ ?_
    · rw [hspec.2.1 ig]
      exact htag
    · intro g hg
      rcases List.mem_append.mp hg with hg | hg
      · rcases hacc g hg with ⟨hd, hm⟩
        exact ⟨hd, hspec.2.2.1 ig g.unique_name hm⟩
      · rw [List.mem_singleton] at hg
        subst hg
        exact ⟨hspec.1, hspec.2.2.2 htag⟩

/-- Every frame produced by `applyBraceList` carries the requested lateral
direction and is registered under the requested index group. -/
theorem applyBraceList_spec (S : MState) (frs : List Frame) (fn og ig dir : String)
    (htag : hasTag S.index_for ig = true) :
    ∀ fr ∈ (applyBraceList S frs fn og ig dir).1,
      fr.frame_direction = some dir
      ∧ fr.unique_name ∈ indexGet ((applyBraceList S frs fn og ig dir).2).index_for ig := by
  unfold applyBraceList
  exact applyBraceList_go_spec frs fn og ig dir [] S htag (by simp)

/-! ### Error-propagation lemmas -/

theorem expure {α : Type} (x : α) : (pure x : Except Err α) = Except.ok x := rfl

theorem foldl_braceBayStep_absorb (bays : List (Option String)) (fn : String)
    (zc zb : ℚ) (row : BraceRow) (S : MState) (e : Err) :
    bays.foldl (braceBayStep fn zc zb row) (S, some e) = (S, some e) := by
  induction bays with
  | nil => rfl
  | cons b bays ih =>
    rw [List.foldl_cons]
    exact ih

theorem foldl_braceRowStep_absorb (rows : List (SFRSRow × FloorRow × BraceRow))
    (S : MState) (e : Err) :
    rows.foldl braceRowStep (S, some e) = (S, some e) := by
  induction rows with
  | nil => rfl
  | cons r rows ih =>
    rw [List.foldl_cons]
    exact ih

theorem foldBaysBraces_cons_error (S : MState) (fn : String) (zc zb : ℚ)
    (row : BraceRow) (s : String) (bays : List (Option String)) (e : Err)
    (h : processBayBraces S fn zc zb row s = Except.error e) :
    foldBaysBraces S fn zc zb row (some s :: bays) = (S, some e) := by
  unfold foldBaysBraces
  rw [List.foldl_cons]
  have hstep : braceBayStep fn zc zb row (S, none) (some s) = (S, some e) := by
    unfold braceBayStep
    dsimp only
    rw [h]
  rw [hstep]
  exact foldl_braceBayStep_absorb bays fn zc zb row S e

theorem resolveBayBraces_empty_X (xg yg : Grids) (row : BraceRow)
    (gon gf gt : String) (a : ℚ) (cs ct : Nat)
    (hfind : gridFind xg gon = some a) (hs : ordOf gf = Except.ok cs)
    (ht : ordOf gt = Except.ok ct) (hlt : ct < cs) :
    resolveBayBraces xg yg row gon gf gt = Except.ok
      { frame_direction := "X", abscissa := a, ordinate_range := [],
        brace_section := row.x_brace, brace_config := row.x_config } := by
  unfold resolveBayBraces
  simp only [hfind]
  rw [hs, exbind_ok, ht, exbind_ok, charRangeLabels_empty cs ct hlt,
    List.mapM_nil, expure, exbind_ok]

/-! ### Claim theorems: C3, C7, C8 -/

/-- C3 (corrected): the lateral direction of a bay equals the axis family of
its `on` label, not the orthogonal one: a numeric (X-family) `on` yields
direction "X" for generated braces, a letter (Y-family) `on` yields "Y"; in
moment-frame classification the direction is "Y" exactly when the from/to
labels are numeric (X-family), i.e. when `on` is a letter.  Every generated
brace carries that direction and is registered in the matching
SFRS_braceX/SFRS_braceY group. -/
theorem C3_direction_follows_on_family :
    (∀ (xg yg : Grids) (row : BraceRow) (gon gf gt : String) (res : BayResolution),
      resolveBayBraces xg yg row gon gf gt = Except.ok res →
      res.frame_direction = if gridMem xg gon then "X" else "Y")
    ∧ (∀ (xg yg : Grids) (gf gt : String) (lo hi : ℚ) (dir : String),
      resolveBayMF xg yg gf gt = Except.ok (lo, hi, dir) →
      dir = if gridMem xg gf then "Y" else "X")
    ∧ braceIndexGroup "X" = "SFRS_braceX"
    ∧ braceIndexGroup "Y" = "SFRS_braceY"
    ∧ (∀ (S : MState) (frs : List Frame) (fn og dir : String),
      hasTag S.index_for (braceIndexGroup dir) = true →
      ∀ fr ∈ (applyBraceList S frs fn og (braceIndexGroup dir) dir).1,
        fr.frame_direction = some dir
        ∧ fr.unique_name ∈ indexGet
            ((applyBraceList S frs fn og (braceIndexGroup dir) dir).2).index_for
            (braceIndexGroup dir)) := by
  refine ⟨resolveBayBraces_direction, resolveBayMF_direction, rfl, rfl, ?_⟩
  intro S frs fn og dir htag
  exact applyBraceList_spec S frs fn og (braceIndexGroup dir) dir htag

set_option maxRecDepth 8000 in
/-- C3 counterexample: for the descriptor `1;A-B` whose `on` label "1"
belongs to the numeric X-family, the resolved direction is "X" (and the
generated brace is registered under SFRS_braceX), not "Y" as the claim
states; likewise moment-frame resolution for the cross labels A, B gives
direction "X". -/
theorem C3_counterexample :
    gridMem egS0.x_grids "1" = true
    ∧ resolveBayBraces egS0.x_grids egS0.y_grids egBrace "1" "A" "B"
        = Except.ok egRes
    ∧ egRes.frame_direction = "X"
    ∧ (resolveBayMF egS0.x_grids egS0.y_grids "A" "B").toOption.map
        (fun r => r.2.2) = some "X"
    ∧ (processBayBraces egS2 "Roof" 144 0 egBrace "1;A-B").toOption.map
        (fun S2 => indexGet S2.index_for "SFRS_braceX") = some [9]
    ∧ ¬("X" = "Y") := by
  with_unfolding_all decide

set_option maxRecDepth 8000 in
/-- C3 witness: the amended direction rule applied at the concrete descriptor
`1;A-B`. -/
theorem C3_witness :
    resolveBayBraces egS0.x_grids egS0.y_grids egBrace "1" "A" "B" = Except.ok egRes
    ∧ egRes.frame_direction = if gridMem egS0.x_grids "1" then "X" else "Y" :=
  ⟨by with_unfolding_all decide,
   C3_direction_follows_on_family.1 egS0.x_grids egS0.y_grids egBrace "1" "A" "B"
     egRes (by with_unfolding_all decide)⟩

/-- C7 (corrected): the moment-frame pass is insensitive to the order of the
from/to labels (the ordinate interval is the min/max of the two, so the whole
bay classification is unchanged under a swap), but brace and wall generation
enumerate the grid labels in ascending order from `from` to `to`: when the
`from` label is beyond the `to` label the range is empty and no member is
generated at all (rather than the same members). -/
theorem C7_bay_order :
    (∀ (S : MState) (floor : String) (mf : MFRow) (s1 s2 gon gf gt : String),
      parseSFRS s1 = Except.ok (gon, gf, gt) →
      parseSFRS s2 = Except.ok (gon, gt, gf) →
      ((gridMem S.x_grids gf = true ∧ gridMem S.x_grids gt = true)
        ∨ (gridMem S.x_grids gf = false ∧ gridMem S.x_grids gt = false
           ∧ gridMem S.y_grids gf = true ∧ gridMem S.y_grids gt = true)) →
      processBayMF S floor mf s1 = processBayMF S floor mf s2)
    ∧ (∀ s e : Nat, e < s → charRangeLabels s e = [] ∧ intRangeLabels s e = [])
    ∧ (∀ (key : String)
        (gen : MState → String → String → ℚ → List ℚ → String → ℚ → ℚ → String →
          List Frame × MState),
      selectBraceGenerator key = Except.ok gen →
      ∀ (S : MState) (fn dir : String) (ab : ℚ) (bs : String) (zc zb : ℚ)
        (og : String), gen S fn dir ab [] bs zc zb og = ([], S))
    ∧ (∀ (S : MState) (fn gon wd : String) (ab : ℚ) (ws pl : String) (zc zb : ℚ),
      addWallPanels S fn gon wd ab [] ws pl zc zb = ([], S))
    ∧ (∀ (S : MState) (fn : String) (zc zb : ℚ) (row : BraceRow)
        (s gon gf gt : String) (a : ℚ) (cs ct : Nat)
        (gen : MState → String → String → ℚ → List ℚ → String → ℚ → ℚ → String →
          List Frame × MState),
      parseSFRS s = Except.ok (gon, gf, gt) →
      gridFind S.x_grids gon = some a →
      ordOf gf = Except.ok cs → ordOf gt = Except.ok ct → ct < cs →
      selectBraceGenerator (braceConfigKey row.x_config) = Except.ok gen →
      processBayBraces S fn zc zb row s = Except.ok S) := by
  refine ⟨?_, ?_, selectBraceGenerator_empty_range, ?_, ?_⟩
  · intro S floor mf s1 s2 gon gf gt h1 h2 hfam
    unfold processBayMF
    rw [h1, h2, exbind_ok, exbind_ok]
    dsimp only
    rw [resolveBayMF_comm S.x_grids S.y_grids gf gt hfam]
  · intro s e h
    exact ⟨charRangeLabels_empty s e h, intRangeLabels_empty s e h⟩
  · intro S fn gon wd ab ws pl zc zb
    rfl
  · intro S fn zc zb row s gon gf gt a cs ct gen hp hfind hs ht hlt hgen
    unfold processBayBraces
    rw [hp, exbind_ok]
    dsimp only
    rw [resolveBayBraces_empty_X S.x_grids S.y_grids row gon gf gt a cs ct
      hfind hs ht hlt, exbind_ok]
    dsimp only
    rw [hgen, exbind_ok]
    rw [show gen S fn "X" a [] row.x_brace zc zb gon = ([], S) from
      selectBraceGenerator_empty_range _ gen hgen S fn "X" a row.x_brace zc zb gon]

set_option maxRecDepth 8000 in
/-- C7 counterexample: for the bay `1;A-B` the brace pass creates one member
and the wall pass one panel, but with the labels reversed (`1;B-A`) both
passes create nothing — so label order does change the set of generated
brace/wall members, contradicting the claim. -/
theorem C7_counterexample :
    (processBayBraces egS2 "Roof" 144 0 egBrace "1;A-B").toOption.map
        (fun S2 => S2.sap.created.length) = some 9
    ∧ (processBayBraces egS2 "Roof" 144 0 egBrace "1;B-A").toOption.map
        (fun S2 => S2.sap.created.length) = some 8
    ∧ (processBayWalls egS2 "Roof" 144 0 egWall "1;A-B").toOption.map
        (fun S2 => S2.sap.wall_created.length) = some 1
    ∧ (processBayWalls egS2 "Roof" 144 0 egWall "1;B-A").toOption.map
        (fun S2 => S2.sap.wall_created.length) = some 0
    ∧ egS2.sap.created.length = 8 := by
  with_unfolding_all decide

set_option maxRecDepth 8000 in
/-- C7 witness: order insensitivity of the moment-frame pass and the empty
reversed brace range, at the concrete bay `1;A-B` / `1;B-A`. -/
theorem C7_witness :
    processBayMF egS2 "Roof" egMF "1;A-B" = processBayMF egS2 "Roof" egMF "1;B-A"
    ∧ processBayBraces egS2 "Roof" 144 0 egBrace "1;B-A" = Except.ok egS2 :=
  ⟨C7_bay_order.1 egS2 "Roof" egMF "1;A-B" "1;B-A" "1" "A" "B"
      (by with_unfolding_all decide) (by with_unfolding_all decide)
      (Or.inr (by with_unfolding_all decide)),
   C7_bay_order.2.2.2.2 egS2 "Roof" 144 0 egBrace "1;B-A" "1" "B" "A" 0 66 65
      add_braces_singleA
      (by with_unfolding_all decide) (by with_unfolding_all decide)
      (by with_unfolding_all decide) (by with_unfolding_all decide)
      (by omega) (by with_unfolding_all rfl)⟩

/-- C8 (corrected): a malformed descriptor, unknown config token or unknown
grid label raises before any sink mutation is attempted for that bay entry
(the returned state is exactly the input state), but the raised error aborts
the remainder of the run: no later bay entry or floor of the table is
processed. -/
theorem C8_error_aborts_run (S : MState) (frow : FloorRow) (dfl : List FloorRow)
    (brow : BraceRow) (brows : List BraceRow) (fn : String)
    (bays : List (Option String)) (rest : List SFRSRow) (s : String) (e : Err)
    (h : processBayBraces S fn (frow.floor_elev * 12)
        (frow.floor_elev * 12 - frow.floor_height * 12) brow s = Except.error e) :
    add_braces S (frow :: dfl)
      ({ floor_name := fn, bays := some s :: bays } :: rest) (brow :: brows)
      = (S, some e) := by
  unfold add_braces
  rw [List.zip_cons_cons, List.zip_cons_cons, List.foldl_cons]
  have hrow : braceRowStep (S, none)
      ({ floor_name := fn, bays := some s :: bays }, frow, brow) = (S, some e) :=
    foldBaysBraces_cons_error S fn (frow.floor_elev * 12)
      (frow.floor_elev * 12 - frow.floor_height * 12) brow s bays e h
  rw [hrow]
  exact foldl_braceRowStep_absorb (rest.zip (dfl.zip brows)) S e

set_option maxRecDepth 8000 in
/-- C8 counterexample: with a malformed first bay entry (`1B-E`, missing the
separator) followed by a well-formed entry `1;A-B`, the run returns the
raised IndexError with the state completely unchanged — the well-formed entry
creates nothing, although on its own it creates one brace.  Processing of the
other bay entries therefore does not complete, contradicting the claim. -/
theorem C8_counterexample :
    (add_braces egS2 egFloors
        [{ floor_name := "Roof", bays := [some "1B-E", some "1;A-B"] }]
        [egBrace]).2 = some Err.indexError
    ∧ (add_braces egS2 egFloors
        [{ floor_name := "Roof", bays := [some "1B-E", some "1;A-B"] }]
        [egBrace]).1 = egS2
    ∧ (add_braces egS2 egFloors
        [{ floor_name := "Roof", bays := [some "1;A-B"] }]
        [egBrace]).1.sap.created.length = egS2.sap.created.length + 1 := by
  with_unfolding_all decide

set_option maxRecDepth 8000 in
/-- C8 witness: the amended abort behaviour at the concrete malformed
descriptor `1B-E`. -/
theorem C8_witness :
    add_braces egS2 egFloors
      [{ floor_name := "Roof", bays := [some "1B-E"] }] [egBrace]
      = (egS2, some Err.indexError) :=
  C8_error_aborts_run egS2
    { floor_name := "Roof", floor_height := 12, floor_elev := 12,
      column := "W14X90", girder := "W24X55", beam := "W16X26" }
    [] egBrace [] "Roof" [] [] "1B-E" Err.indexError
    (by with_unfolding_all decide)

/-! ### Shared lemmas: the trimming pass -/

theorem fobjGet_fmapSet_found (m : List (Nat × Frame)) (uid : Nat) (fr0 f : Frame)
    (h : fobjGet m uid = some fr0) : fobjGet (fmapSet m uid f) uid = some f := by
  induction m with
  | nil => simp [fobjGet] at h
  | cons kv m ih =>
    rcases kv with ⟨k, v⟩
    by_cases hk : k = uid
    · have hb : (k == uid) = true := beq_iff_eq.mpr hk
      simp [fmapSet, fobjGet, List.find?, hb]
    · have hb : (k == uid) = false := beq_eq_false_iff_ne.mpr hk
      simp only [fobjGet, List.find?, hb] at h
      simp only [fmapSet, List.map, hb, Bool.false_eq_true, if_false,
        fobjGet, List.find?]
      simpa [fobjGet, fmapSet] using ih h

theorem deleteFrameStep_segOf (vs : List P2) (St : MState) (u' uid : Nat) :
    segOf (deleteFrameStep vs St u') uid = segOf St uid := by
  unfold deleteFrameStep
  split
  · rfl
  · rename_i fr hfo
    dsimp only
    split
    · rfl
    · by_cases hk : uid = u'
      · subst hk
        unfold segOf
        rw [fobjGet_fmapSet_found St.frame_objects uid fr _ hfo, hfo]
        rfl
      · unfold segOf
        rw [fobjGet_fmapSet_ne St.frame_objects uid u' _ hk]

theorem deleteFrameStep_hasTag (vs : List P2) (St : MState) (u' : Nat) (tag : String) :
    hasTag (deleteFrameStep vs St u').index_for tag = hasTag St.index_for tag := by
  unfold deleteFrameStep
  split
  · rfl
  · dsimp only
    split
    · rfl
    · exact hasTag_indexAdd _ _ _ _

theorem deleteFrameStep_tag_ne (vs : List P2) (St : MState) (u' : Nat) (tag : String)
    (h : tag ≠ "deleted") :
    indexGet (deleteFrameStep vs St u').index_for tag = indexGet St.index_for tag := by
  unfold deleteFrameStep
  split
  · rfl
  · dsimp only
    split
    · rfl
    · exact indexGet_indexAdd_ne _ _ _ _ h

theorem deleteFrameStep_deleted_mem (vs : List P2) (St : MState) (u' uid : Nat)
    (htag : hasTag St.index_for "deleted" = true) :
    (uid ∈ indexGet (deleteFrameStep vs St u').index_for "deleted" ↔
      uid ∈ indexGet St.index_for "deleted"
      ∨ (uid = u' ∧ ∃ pr, segOf St u' = some pr
          ∧ polygonCoversSeg vs pr.1 pr.2 = false)) := by
  unfold deleteFrameStep
  split
  · rename_i hfo
    unfold segOf
    rw [hfo]
    simp
  · rename_i fr hfo
    dsimp only
    split
    · rename_i hcov
      unfold segOf
      rw [hfo]
      constructor
      · intro h
        exact Or.inl h
      · intro h
        rcases h with h | ⟨_, pr, hpr, hc⟩
        · exact h
        · have hpr2 : projSeg fr = pr := by simpa using hpr
          rw [← hpr2, hcov] at hc
          cases hc
    · rename_i hcov
      unfold segOf
      rw [hfo]
      have hmem : indexGet (indexAdd St.index_for "deleted" u') "deleted"
          = indexGet St.index_for "deleted" ++ [u'] :=
        indexGet_indexAdd_self _ _ _ htag
      have hD : ∃ pr, (some fr).map projSeg = some pr
          ∧ polygonCoversSeg vs pr.1 pr.2 = false := by
        refine ⟨projSeg fr, rfl, ?_⟩
        rcases hb : polygonCoversSeg vs (projSeg fr).1 (projSeg fr).2 with _ | _
        · rfl
        · exact absurd hb hcov
      show uid ∈ indexGet (indexAdd St.index_for "deleted" u') "deleted" ↔ _
      rw [hmem]
      simp only [List.mem_append, List.mem_singleton]
      constructor
      · intro h
        rcases h with h | h
        · exact Or.inl h
        · exact Or.inr ⟨h, hD⟩
      · intro h
        rcases h with h | ⟨h, _⟩
        · exact Or.inl h
        · exact Or.inr h

theorem delete_fold_hasTag (vs : List P2) (l : List Nat) (S : MState) (tag : String) :
    hasTag ((l.foldl (deleteFrameStep vs) S)).index_for tag = hasTag S.index_for tag := by
  induction l generalizing S with
  | nil => rfl
  | cons u l ih =>
    rw [List.foldl_cons, ih, deleteFrameStep_hasTag]

theorem delete_fold_segOf (vs : List P2) (l : List Nat) (S : MState) (uid : Nat) :
    segOf ((l.foldl (deleteFrameStep vs) S)) uid = segOf S uid := by
  induction l generalizing S with
  | nil => rfl
  | cons u l ih =>
    rw [List.foldl_cons, ih, deleteFrameStep_segOf]

theorem delete_fold_tag_ne (vs : List P2) (l : List Nat) (S : MState) (tag : String)
    (h : tag ≠ "deleted") :
    indexGet ((l.foldl (deleteFrameStep vs) S)).index_for tag
      = indexGet S.index_for tag := by
  induction l generalizing S with
  | nil => rfl
  | cons u l ih =>
    rw [List.foldl_cons, ih, deleteFrameStep_tag_ne vs S u tag h]

theorem delete_fold_deleted_mem (vs : List P2) (l : List Nat) (S : MState) (uid : Nat)
    (htag : hasTag S.index_for "deleted" = true) :
    (uid ∈ indexGet ((l.foldl (deleteFrameStep vs) S)).index_for "deleted" ↔
      uid ∈ indexGet S.index_for "deleted"
      ∨ (uid ∈ l ∧ ∃ pr, segOf S uid = some pr
          ∧ polygonCoversSeg vs pr.1 pr.2 = false)) := by
  induction l generalizing S with
  | nil => simp
  | cons u l ih =>
    rw [List.foldl_cons]
    rw [ih (deleteFrameStep vs S u)
      (by rw [deleteFrameStep_hasTag]; exact htag)]
    rw [deleteFrameStep_deleted_mem vs S u uid htag, deleteFrameStep_segOf]
    constructor
    · intro h
      rcases h with (h | ⟨he, pr, hpr, hc⟩) | ⟨hl, pr, hpr, hc⟩
      · exact Or.inl h
      · subst he
        exact Or.inr ⟨List.mem_cons_self uid l, pr, hpr, hc⟩
      · exact Or.inr ⟨List.mem_cons_of_mem u hl, pr, hpr, hc⟩
    · intro h
      rcases h with h | ⟨hl, pr, hpr, hc⟩
      · exact Or.inl (Or.inl h)
      · rcases List.mem_cons.mp hl with he | hl
        · subst he
          exact Or.inl (Or.inr ⟨rfl, pr, hpr, hc⟩)
        · exact Or.inr ⟨hl, pr, hpr, hc⟩

/-- C1 (corrected): the trimmer deletes a member exactly when the **entire**
projected segment of the member is not covered by the floor polygon — not
just when an endpoint is outside.  One endpoint strictly outside still forces
deletion (the coverage test includes the endpoints), but a member with both
endpoints inside a non-convex boundary is deleted whenever the segment
between them leaves the polygon. -/
theorem C1_trim_is_segment_coverage (S : MState) (floor_name : String) (uid : Nat)
    (htag : hasTag S.index_for "deleted" = true) :
    (uid ∈ indexGet (delete_frames_floor S floor_name).index_for "deleted" ↔
      uid ∈ indexGet S.index_for "deleted"
      ∨ (uid ∈ indexGet S.index_for floor_name
          ∧ ∃ pr, segOf S uid = some pr
            ∧ polygonCoversSeg (floorPoly S floor_name) pr.1 pr.2 = false))
    ∧ (∀ (vs : List P2) (u v : P2),
        pointInPoly u vs = false ∨ pointInPoly v vs = false →
        polygonCoversSeg vs u v = false) :=
  ⟨delete_fold_deleted_mem (floorPoly S floor_name)
      (indexGet S.index_for floor_name) S uid htag,
   not_covered_of_endpoint_outside⟩

set_option maxRecDepth 8000 in
/-- C1 counterexample: on the U-shaped floor `uPoly`, the member `frU` has
both projected endpoints strictly inside the polygon, yet the trimming pass
deletes it (its segment crosses the notch) — refuting "retained whenever both
projected endpoints lie within or on the boundary". -/
theorem C1_counterexample :
    pointInPoly ((1 : ℚ), (4 : ℚ)) uPoly = true
    ∧ pointInPoly ((5 : ℚ), (4 : ℚ)) uPoly = true
    ∧ projSeg frU = (((1 : ℚ), (4 : ℚ)), ((5 : ℚ), (4 : ℚ)))
    ∧ 1 ∈ indexGet (delete_frames SU ["F1"]).index_for "deleted"
    ∧ (fobjGet (delete_frames SU ["F1"]).frame_objects 1).map (fun f => f.deleted)
        = some true := by
  with_unfolding_all decide

set_option maxRecDepth 8000 in
/-- C1 witness: the coverage characterisation applied to the concrete square
floor state `SSq`. -/
theorem C1_witness :
    hasTag SSq.index_for "deleted" = true
    ∧ (1 ∈ indexGet (delete_frames_floor SSq "F1").index_for "deleted" ↔
        1 ∈ indexGet SSq.index_for "deleted"
        ∨ (1 ∈ indexGet SSq.index_for "F1"
            ∧ ∃ pr, segOf SSq 1 = some pr
              ∧ polygonCoversSeg (floorPoly SSq "F1") pr.1 pr.2 = false)) :=
  ⟨by with_unfolding_all decide,
   (C1_trim_is_segment_coverage SSq "F1" 1 (by with_unfolding_all decide)).1⟩

/-- C2 (corrected): after the trimming pass a deleted id is removed from the
three gravity role tags ("column", "girder", "beam") but remains in every
other tag it was in — in particular its floor tag and its grid tags are not
cleaned — and a deleted id can later be re-added to SFRS tags by the
moment-frame classification (see the counterexample). -/
theorem C2_deleted_quarantine (S : MState) (floor_names : List String) :
    (∀ uid ∈ indexGet (delete_frames S floor_names).index_for "deleted",
      uid ∉ indexGet (delete_frames S floor_names).index_for "column"
      ∧ uid ∉ indexGet (delete_frames S floor_names).index_for "girder"
      ∧ uid ∉ indexGet (delete_frames S floor_names).index_for "beam")
    ∧ (∀ tag, tag ≠ "deleted" → tag ≠ "column" → tag ≠ "girder" → tag ≠ "beam" →
      indexGet (delete_frames S floor_names).index_for tag
        = indexGet (floor_names.foldl delete_frames_floor S).index_for tag) := by
  constructor
  · intro uid hdel
    have hdel2 : uid ∈ indexGet
        ((floor_names.foldl delete_frames_floor S)).index_for "deleted" := by
      have : indexGet (delete_frames S floor_names).index_for "deleted"
          = indexGet ((floor_names.foldl delete_frames_floor S)).index_for "deleted" := by
        unfold delete_frames
        rw [indexGet_indexSetSub_ne _ _ _ _ (by decide),
          indexGet_indexSetSub_ne _ _ _ _ (by decide),
          indexGet_indexSetSub_ne _ _ _ _ (by decide)]
      rw [this] at hdel
      exact hdel
    refine ⟨?_, ?_, ?_⟩
    · intro hmem
      have : indexGet (delete_frames S floor_names).index_for "column"
          = (indexGet ((floor_names.foldl delete_frames_floor S)).index_for "column").filter
            (fun u => !((indexGet ((floor_names.foldl delete_frames_floor S)).index_for
              "deleted").contains u)) := by
        unfold delete_frames
        rw [indexGet_indexSetSub_ne _ _ _ _ (by decide),
          indexGet_indexSetSub_ne _ _ _ _ (by decide),
          indexGet_indexSetSub_self]
      rw [this] at hmem
      rcases List.mem_filter.mp hmem with ⟨_, hno⟩
      simp only [List.contains, Bool.not_eq_true'] at hno
      rw [List.elem_eq_true_of_mem hdel2] at hno
      cases hno
    · intro hmem
      have : indexGet (delete_frames S floor_names).index_for "girder"
          = (indexGet ((floor_names.foldl delete_frames_floor S)).index_for "girder").filter
            (fun u => !((indexGet ((floor_names.foldl delete_frames_floor S)).index_for
              "deleted").contains u)) := by
        unfold delete_frames
        rw [indexGet_indexSetSub_ne _ _ _ _ (by decide),
          indexGet_indexSetSub_self,
          indexGet_indexSetSub_ne _ _ _ _ (by decide)]
      rw [this] at hmem
      rcases List.mem_filter.mp hmem with ⟨_, hno⟩
      simp only [List.contains, Bool.not_eq_true'] at hno
      rw [List.elem_eq_true_of_mem hdel2] at hno
      cases hno
    · intro hmem
      have : indexGet (delete_frames S floor_names).index_for "beam"
          = (indexGet ((floor_names.foldl delete_frames_floor S)).index_for "beam").filter
            (fun u => !((indexGet ((floor_names.foldl delete_frames_floor S)).index_for
              "deleted").contains u)) := by
        unfold delete_frames
        rw [indexGet_indexSetSub_self,
          indexGet_indexSetSub_ne _ _ _ _ (by decide),
          indexGet_indexSetSub_ne _ _ _ _ (by decide)]
      rw [this] at hmem
      rcases List.mem_filter.mp hmem with ⟨_, hno⟩
      simp only [List.contains, Bool.not_eq_true'] at hno
      rw [List.elem_eq_true_of_mem hdel2] at hno
      cases hno
  · intro tag h1 h2 h3 h4
    unfold delete_frames
    rw [indexGet_indexSetSub_ne _ _ _ _ h4, indexGet_indexSetSub_ne _ _ _ _ h3,
      indexGet_indexSetSub_ne _ _ _ _ h2]

set_option maxRecDepth 8000 in
/-- C2 counterexample: in the concrete pipeline, id 2 (a column outside the
floor boundary) is recorded under "deleted" but remains in its floor tag
"Roof" and its grid tags, and the later moment-frame pass for bay `2;A-B`
re-adds it to the "SFRS" and "SFRS_columnX" tags — refuting both halves of
the quarantine claim. -/
theorem C2_counterexample :
    2 ∈ indexGet egS2.index_for "deleted"
    ∧ 2 ∈ indexGet egS2.index_for "Roof"
    ∧ 2 ∈ indexGet egS2.index_for "on 2"
    ∧ 2 ∈ indexGet egS2.index_for "on A"
    ∧ 2 ∈ indexGet egS3.index_for "SFRS"
    ∧ 2 ∈ indexGet egS3.index_for "SFRS_columnX"
    ∧ 2 ∈ indexGet egS3.index_for "deleted" := by
  with_unfolding_all decide

set_option maxRecDepth 8000 in
/-- C2 witness: the amended quarantine applied to the concrete trimmed
state. -/
theorem C2_witness :
    2 ∈ indexGet (delete_frames egS1 ["Roof"]).index_for "deleted"
    ∧ (2 ∉ indexGet (delete_frames egS1 ["Roof"]).index_for "column"
       ∧ 2 ∉ indexGet (delete_frames egS1 ["Roof"]).index_for "girder"
       ∧ 2 ∉ indexGet (delete_frames egS1 ["Roof"]).index_for "beam")
    ∧ indexGet (delete_frames egS1 ["Roof"]).index_for "Roof"
        = indexGet (["Roof"].foldl delete_frames_floor egS1).index_for "Roof" :=
  ⟨by with_unfolding_all decide,
   (C2_deleted_quarantine egS1 ["Roof"]).1 2 (by with_unfolding_all decide),
   (C2_deleted_quarantine egS1 ["Roof"]).2 "Roof" (by decide) (by decide)
     (by decide) (by decide)⟩

/-! ### Shared lemmas: grid-line tags and `add_MFs` preservation -/

theorem isPrefixOf_append_self (l m : List Char) : l.isPrefixOf (l ++ m) = true := by
  induction l with
  | nil => simp [List.isPrefixOf]
  | cons c l ih => simp [List.isPrefixOf, ih]

theorem isOnTag_on_append (g : String) : isOnTag ("on " ++ g) = true := by
  unfold isOnTag
  rw [show ("on " ++ g).data = "on ".data ++ g.data from rfl]
  exact isPrefixOf_append_self _ _

theorem notInAnyOnTag_spec (idx : Index) (uid : Nat)
    (h : notInAnyOnTag idx uid = true) (g : String) :
    uid ∉ indexGet idx ("on " ++ g) := by
  intro hmem
  unfold indexGet at hmem
  rcases hfind : idx.find? (fun kv => kv.1 == ("on " ++ g)) with _ | kv
  · rw [hfind] at hmem
    simp at hmem
  · rw [hfind] at hmem
    simp only [Option.map_some', Option.getD_some] at hmem
    have hkv := List.find?_some hfind
    have hkmem := List.mem_of_find?_eq_some hfind
    have hkey : kv.1 = "on " ++ g := beq_iff_eq.mp hkv
    have hall := (List.all_eq_true.mp h) kv hkmem
    rw [hkey] at hall
    rw [isOnTag_on_append] at hall
    simp only [Bool.not_true, Bool.false_or, Bool.not_eq_true'] at hall
    simp only [List.contains, Bool.not_eq_true'] at hall
    rw [List.elem_eq_true_of_mem hmem] at hall
    cases hall

theorem notInAnyOnTag_indexAdd (idx : Index) (t : String) (u' : Nat)
    (h : isOnTag t = false) (uid : Nat) :
    notInAnyOnTag (indexAdd idx t u') uid = notInAnyOnTag idx uid := by
  induction idx with
  | nil => rfl
  | cons kv idx ih =>
    rcases kv with ⟨key, v⟩
    rw [indexAdd_cons]
    unfold notInAnyOnTag
    rw [List.all_cons, List.all_cons]
    by_cases hk : key = t
    · rw [if_pos hk, hk, h]
      simp only [Bool.not_false, Bool.true_or]
      exact congrArg _ (by simpa [notInAnyOnTag] using ih)
    · rw [if_neg hk]
      exact congrArg _ (by simpa [notInAnyOnTag] using ih)

/-- A classification step for a different member id leaves the given id's
frame object, tag memberships, and absence from grid tags untouched. -/
theorem processMemberMF_preserve (S : MState) (dir : String) (lo hi : ℚ)
    (a b c d : String) (u' uid : Nat) (hne : uid ≠ u') :
    fobjGet (processMemberMF S dir lo hi a b c d u').frame_objects uid
        = fobjGet S.frame_objects uid
    ∧ (∀ tag, uid ∈ indexGet (processMemberMF S dir lo hi a b c d u').index_for tag
        ↔ uid ∈ indexGet S.index_for tag)
    ∧ notInAnyOnTag (processMemberMF S dir lo hi a b c d u').index_for uid
        = notInAnyOnTag S.index_for uid := by
  have hfobj : ∀ fr : Frame,
      fobjGet (fmapSet S.frame_objects u' fr) uid = fobjGet S.frame_objects uid :=
    fun fr => fobjGet_fmapSet_ne _ _ _ _ hne
  have hmem2 : ∀ (t1 t2 : String) (tag : String),
      uid ∈ indexGet (indexAdd (indexAdd S.index_for t1 u') t2 u') tag
        ↔ uid ∈ indexGet S.index_for tag := by
    intro t1 t2 tag
    rw [mem_indexGet_indexAdd, mem_indexGet_indexAdd]
    constructor
    · intro h
      rcases h with (h | ⟨he, _⟩) | ⟨he, _⟩
      · exact h
      · exact absurd he hne
      · exact absurd he hne
    · intro h
      exact Or.inl (Or.inl h)
  have hmem1 : ∀ (t1 : String) (tag : String),
      uid ∈ indexGet (indexAdd S.index_for t1 u') tag
        ↔ uid ∈ indexGet S.index_for tag := by
    intro t1 tag
    rw [mem_indexGet_indexAdd]
    constructor
    · intro h
      rcases h with h | ⟨he, _⟩
      · exact h
      · exact absurd he hne
    · intro h
      exact Or.inl h
  have hon2 : ∀ (t1 t2 : String), isOnTag t1 = false → isOnTag t2 = false →
      notInAnyOnTag (indexAdd (indexAdd S.index_for t1 u') t2 u') uid
        = notInAnyOnTag S.index_for uid := by
    intro t1 t2 h1 h2
    rw [notInAnyOnTag_indexAdd _ _ _ h2, notInAnyOnTag_indexAdd _ _ _ h1]
  unfold processMemberMF
  split
  · exact ⟨rfl, fun _ => Iff.rfl, rfl⟩
  · rename_i fr hfo
    dsimp only
    split
    · split
      · split
        · exact ⟨hfobj _, hmem2 "SFRS" "SFRS_columnX", hon2 _ _ (by decide) (by decide)⟩
        · split
          · exact ⟨hfobj _, hmem2 "SFRS" "SFRS_beamX", hon2 _ _ (by decide) (by decide)⟩
          · exact ⟨hfobj _, hmem1 "SFRS", notInAnyOnTag_indexAdd _ _ _ (by decide) uid⟩
      · split
        · exact ⟨hfobj _, hmem2 "SFRS" "SFRS_columnY", hon2 _ _ (by decide) (by decide)⟩
        · split
          · exact ⟨hfobj _, hmem2 "SFRS" "SFRS_beamY", hon2 _ _ (by decide) (by decide)⟩
          · exact ⟨hfobj _, hmem1 "SFRS", notInAnyOnTag_indexAdd _ _ _ (by decide) uid⟩
    · exact ⟨rfl, fun _ => Iff.rfl, rfl⟩

theorem mfFold_preserve (dir : String) (lo hi : ℚ) (a b c d : String)
    (l : List Nat) (uid : Nat) :
    ∀ S : MState, (∀ u' ∈ l, u' ≠ uid) →
      fobjGet ((l.foldl (fun St u' => processMemberMF St dir lo hi a b c d u') S)).frame_objects uid
          = fobjGet S.frame_objects uid
      ∧ (∀ tag,
          uid ∈ indexGet ((l.foldl (fun St u' => processMemberMF St dir lo hi a b c d u') S)).index_for tag
          ↔ uid ∈ indexGet S.index_for tag)
      ∧ notInAnyOnTag ((l.foldl (fun St u' => processMemberMF St dir lo hi a b c d u') S)).index_for uid
          = notInAnyOnTag S.index_for uid := by
  induction l with
  | nil => exact fun S _ => ⟨rfl, fun _ => Iff.rfl, rfl⟩
  | cons u' l ih =>
    intro S hl
    rw [List.foldl_cons]
    have hstep := processMemberMF_preserve S dir lo hi a b c d u' uid
      (fun he => (hl u' (List.mem_cons_self u' l)) he.symm)
    have hrest := ih (processMemberMF S dir lo hi a b c d u')
      (fun v hv => hl v (List.mem_cons_of_mem u' hv))
    refine ⟨hrest.1.trans hstep.1, ?_, hrest.2.2.trans hstep.2.2⟩
    intro tag
    exact (hrest.2.1 tag).trans (hstep.2.1 tag)

/-- A successful bay classification leaves untouched every id that appears in
no grid-line tag. -/
theorem processBayMF_preserve (S S' : MState) (floor mf_s : String) (mf : MFRow)
    (uid : Nat) (hok : processBayMF S floor mf mf_s = Except.ok S')
    (h : notInAnyOnTag S.index_for uid = true) :
    fobjGet S'.frame_objects uid = fobjGet S.frame_objects uid
    ∧ (∀ tag, uid ∈ indexGet S'.index_for tag ↔ uid ∈ indexGet S.index_for tag)
    ∧ notInAnyOnTag S'.index_for uid = true := by
  unfold processBayMF at hok
  rcases hp : parseSFRS mf_s with e | p
  · rw [hp, exbind_error] at hok
    cases hok
  · rw [hp, exbind_ok] at hok
    rcases hr : resolveBayMF S.x_grids S.y_grids p.2.1 p.2.2 with e | r
    · rw [hr, exbind_error] at hok
      cases hok
    · rw [hr, exbind_ok] at hok
      have hS' := Except.ok.inj hok
      have hcand : ∀ u' ∈ bayCandidates S.index_for p.1 floor, u' ≠ uid := by
        intro u' hu' he
        subst he
        have : u' ∈ indexGet S.index_for ("on " ++ p.1) :=
          (List.mem_filter.mp hu').1
        exact notInAnyOnTag_spec S.index_for u' h p.1 this
      have hfold := mfFold_preserve r.2.2 r.1 r.2.1 mf.x_column mf.x_beam
        mf.y_column mf.y_beam (bayCandidates S.index_for p.1 floor) uid S hcand
      rw [← hS']
      exact ⟨hfold.1, hfold.2.1, hfold.2.2.trans h⟩

theorem mfBaysFold_preserve (floor : String) (mf : MFRow)
    (bays : List (Option String)) (S0 : MState) (uid : Nat) :
    ∀ acc : MState × Option Err,
      (fobjGet acc.1.frame_objects uid = fobjGet S0.frame_objects uid
        ∧ (∀ tag, uid ∈ indexGet acc.1.index_for tag ↔ uid ∈ indexGet S0.index_for tag)
        ∧ notInAnyOnTag acc.1.index_for uid = true) →
      (fobjGet ((bays.foldl (mfBayStep floor mf) acc)).1.frame_objects uid
          = fobjGet S0.frame_objects uid
        ∧ (∀ tag, uid ∈ indexGet ((bays.foldl (mfBayStep floor mf) acc)).1.index_for tag
            ↔ uid ∈ indexGet S0.index_for tag)
        ∧ notInAnyOnTag ((bays.foldl (mfBayStep floor mf) acc)).1.index_for uid = true) := by
  induction bays with
  | nil => exact fun acc hacc => hacc
  | cons b bays ih =>
    intro acc hacc
    rw [List.foldl_cons]
    refine ih (mfBayStep floor mf acc b) ?_
    rcases acc with ⟨Sa, err⟩
    rcases err with _ | e
    · rcases b with _ | s
      · exact hacc
      · have hstep : mfBayStep floor mf (Sa, none) (some s)
            = (match processBayMF Sa floor mf s with
              | Except.ok S2 => (S2, (none : Option Err))
              | Except.error e => (Sa, some e)) := rfl
        rw [hstep]
        rcases hok : processBayMF Sa floor mf s with e | S2
        · exact hacc
        · have hpres := processBayMF_preserve Sa S2 floor s mf uid hok hacc.2.2
          refine ⟨hpres.1.trans hacc.1, ?_, hpres.2.2⟩
          intro tag
          exact (hpres.2.1 tag).trans (hacc.2.1 tag)
    · exact hacc

theorem mfRows_preserve (rows : List (SFRSRow × MFRow)) (S0 : MState) (uid : Nat) :
    ∀ acc : MState × Option Err,
      (fobjGet acc.1.frame_objects uid = fobjGet S0.frame_objects uid
        ∧ (∀ tag, uid ∈ indexGet acc.1.index_for tag ↔ uid ∈ indexGet S0.index_for tag)
        ∧ notInAnyOnTag acc.1.index_for uid = true) →
      (fobjGet ((rows.foldl mfRowStep acc)).1.frame_objects uid
          = fobjGet S0.frame_objects uid
        ∧ (∀ tag, uid ∈ indexGet ((rows.foldl mfRowStep acc)).1.index_for tag
            ↔ uid ∈ indexGet S0.index_for tag)
        ∧ notInAnyOnTag ((rows.foldl mfRowStep acc)).1.index_for uid = true) := by
  induction rows with
  | nil => exact fun acc hacc => hacc
  | cons row rows ih =>
    intro acc hacc
    rw [List.foldl_cons]
    refine ih (mfRowStep acc row) ?_
    unfold mfRowStep
    split
    · exact hacc
    · exact mfBaysFold_preserve row.1.floor_name row.2 row.1.bays S0 uid
        (acc.1, none) hacc

theorem createInfill_tag_ne (fn bs : String) (zc : ℚ) (n : Nat) (S : MState)
    (t : ((String × ℚ) × (String × ℚ)) × ((String × ℚ) × (String × ℚ)) × Nat)
    (tag : String) (h1 : tag ≠ "beam") (h2 : tag ≠ fn) :
    indexGet ((createInfill fn bs zc n S t).2).index_for tag
      = indexGet S.index_for tag := by
  show indexGet (indexAdd (indexAdd S.index_for "beam" _) fn _) tag
    = indexGet S.index_for tag
  rw [indexGet_indexAdd_ne _ _ _ _ h2, indexGet_indexAdd_ne _ _ _ _ h1]

theorem createInfillFold_tag_ne (fn bs : String) (zc : ℚ) (n : Nat)
    (ts : List (((String × ℚ) × (String × ℚ)) × ((String × ℚ) × (String × ℚ)) × Nat))
    (tag : String) (h1 : tag ≠ "beam") (h2 : tag ≠ fn) :
    ∀ (acc : List Frame) (S : MState),
    indexGet ((ts.foldl
        (fun acc t =>
          let r := createInfill fn bs zc n acc.2 t
          (acc.1 ++ [r.1], r.2))
        (acc, S)).2).index_for tag
      = indexGet S.index_for tag := by
  induction ts with
  | nil => exact fun acc S => rfl
  | cons t ts ih =>
    intro acc S
    rw [List.foldl_cons]
    rw [ih]
    exact createInfill_tag_ne fn bs zc n S t tag h1 h2

/-- C10: infill beams are registered only under the "beam" role tag and their
floor tag — the infill pass changes no other tag of the index — and any id
that appears in no "on <grid>" tag is never touched by the moment-frame
pass: its frame object (in particular its role) and all its tag memberships
are exactly as before `add_MFs` ran, so an infill beam is never promoted to
an SFRS role. -/
theorem C10_infill_never_promoted :
    (∀ (S : MState) (fn bs : String) (zc : ℚ) (tag : String),
      tag ≠ "beam" → tag ≠ fn →
      indexGet ((createInfillFloor S fn bs zc).2).index_for tag
        = indexGet S.index_for tag)
    ∧ (∀ (S : MState) (dfS : List SFRSRow) (dfMF : List MFRow) (uid : Nat),
      notInAnyOnTag S.index_for uid = true →
      fobjGet ((add_MFs S dfS dfMF).1).frame_objects uid = fobjGet S.frame_objects uid
      ∧ (∀ tag, uid ∈ indexGet ((add_MFs S dfS dfMF).1).index_for tag ↔
          uid ∈ indexGet S.index_for tag)) := by
  constructor
  · intro S fn bs zc tag h1 h2
    unfold createInfillFloor
    exact createInfillFold_tag_ne fn bs zc S.opts.n_infill
      (infillTriples S.x_grids S.y_grids S.opts.n_infill) tag h1 h2 [] S
  · intro S dfS dfMF uid h
    have := mfRows_preserve (dfS.zip dfMF) S uid (S, none)
      ⟨rfl, fun _ => Iff.rfl, h⟩
    exact ⟨this.1, this.2.1⟩

set_option maxRecDepth 8000 in
/-- C10 witness: with two infill beams per bay, infill beam 9 of the concrete
lattice sits in no grid tag and survives a moment-frame pass over bay `1;A-B`
untouched. -/
theorem C10_witness :
    notInAnyOnTag egSI.index_for 9 = true
    ∧ fobjGet ((add_MFs egSI [{ floor_name := "Roof", bays := [some "1;A-B"] }]
        [egMF]).1).frame_objects 9 = fobjGet egSI.frame_objects 9 :=
  ⟨by with_unfolding_all decide,
   (C10_infill_never_promoted.2 egSI [{ floor_name := "Roof", bays := [some "1;A-B"] }]
     [egMF] 9 (by with_unfolding_all decide)).1⟩

/-! ### Shared lemmas: effects of a moment-frame classification step -/

theorem processMemberMF_not_selected (S : MState) (dir : String) (lo hi : ℚ)
    (a b c d : String) (uid : Nat) (fr : Frame)
    (hfo : fobjGet S.frame_objects uid = some fr)
    (hc : fr.check_in_SFRSbay dir lo hi = false) :
    processMemberMF S dir lo hi a b c d uid = S := by
  unfold processMemberMF
  split
  · rfl
  · rename_i frame_obj heq
    rw [hfo] at heq
    cases heq
    rw [hc]
    rfl

theorem processMemberMF_selected_common (S : MState) (dir : String) (lo hi : ℚ)
    (a b c d : String) (uid : Nat) (fr : Frame)
    (hfo : fobjGet S.frame_objects uid = some fr)
    (hc : fr.check_in_SFRSbay dir lo hi = true) :
    alookup (processMemberMF S dir lo hi a b c d uid).sap.releases uid
        = some (fixedRel, fixedRel)
    ∧ (hasTag S.index_for "SFRS" = true →
        uid ∈ indexGet (processMemberMF S dir lo hi a b c d uid).index_for "SFRS") := by
  unfold processMemberMF
  split
  · rename_i heq
    rw [hfo] at heq
    cases heq
  · rename_i frame_obj heq
    rw [hfo] at heq
    cases heq
    rw [hc]
    rw [if_pos rfl]
    dsimp only
    have hrel : ∀ sap2 : SapState,
        sap2.releases = (S.sap.setReleases uid false).releases →
        alookup sap2.releases uid = some (fixedRel, fixedRel) := by
      intro sap2 h2
      rw [h2]
      show alookup ((uid, (fixedRel, fixedRel)) :: S.sap.releases) uid = _
      rw [alookup_cons, if_pos rfl]
    have hsfrs : ∀ (t2 : String), hasTag S.index_for "SFRS" = true → t2 ≠ "SFRS" →
        uid ∈ indexGet (indexAdd (indexAdd S.index_for "SFRS" uid) t2 uid) "SFRS" := by
      intro t2 ht hne
      apply mem_indexGet_mono
      rw [indexGet_indexAdd_self _ _ _ ht]
      simp
    have hsfrs1 : hasTag S.index_for "SFRS" = true →
        uid ∈ indexGet (indexAdd S.index_for "SFRS" uid) "SFRS" := by
      intro ht
      rw [indexGet_indexAdd_self _ _ _ ht]
      simp
    by_cases hrez : S.opts.enable_REZ = true
    · rw [if_pos hrez]
      split
      · split
        · exact ⟨hrel _ rfl, fun ht => hsfrs _ ht (by decide)⟩
        · split
          · exact ⟨hrel _ rfl, fun ht => hsfrs _ ht (by decide)⟩
          · exact ⟨hrel _ rfl, fun ht => hsfrs1 ht⟩
      · split
        · exact ⟨hrel _ rfl, fun ht => hsfrs _ ht (by decide)⟩
        · split
          · exact ⟨hrel _ rfl, fun ht => hsfrs _ ht (by decide)⟩
          · exact ⟨hrel _ rfl, fun ht => hsfrs1 ht⟩
    · rw [if_neg hrez]
      split
      · split
        · exact ⟨hrel _ rfl, fun ht => hsfrs _ ht (by decide)⟩
        · split
          · exact ⟨hrel _ rfl, fun ht => hsfrs _ ht (by decide)⟩
          · exact ⟨hrel _ rfl, fun ht => hsfrs1 ht⟩
      · split
        · exact ⟨hrel _ rfl, fun ht => hsfrs _ ht (by decide)⟩
        · split
          · exact ⟨hrel _ rfl, fun ht => hsfrs _ ht (by decide)⟩
          · exact ⟨hrel _ rfl, fun ht => hsfrs1 ht⟩

theorem processMemberMF_column_X (S : MState) (lo hi : ℚ) (a b c d : String)
    (uid : Nat) (fr : Frame) (hfo : fobjGet S.frame_objects uid = some fr)
    (hc : fr.check_in_SFRSbay "X" lo hi = true) (htype : fr.frame_type = "column") :
    (fobjGet (processMemberMF S "X" lo hi a b c d uid).frame_objects uid).map
        (fun f => f.frame_type) = some "SFRS_column"
    ∧ alookup (processMemberMF S "X" lo hi a b c d uid).sap.sections uid = some a
    ∧ (hasTag S.index_for "SFRS_columnX" = true →
        uid ∈ indexGet (processMemberMF S "X" lo hi a b c d uid).index_for
          "SFRS_columnX") := by
  unfold processMemberMF
  split
  · rename_i heq
    rw [hfo] at heq
    cases heq
  · rename_i frame_obj heq
    rw [hfo] at heq
    cases heq
    rw [hc]
    rw [if_pos rfl]
    dsimp only
    rw [if_pos rfl, if_pos htype]
    refine ⟨?_, ?_, ?_⟩
    · rw [fobjGet_fmapSet_found _ _ _ _ hfo]
      rfl
    · show alookup ((uid, a) :: _) uid = some a
      rw [alookup_cons, if_pos rfl]
    · intro ht
      show uid ∈ indexGet (indexAdd (indexAdd S.index_for "SFRS" uid)
        "SFRS_columnX" uid) "SFRS_columnX"
      rw [indexGet_indexAdd_self _ _ _ (by rw [hasTag_indexAdd]; exact ht)]
      simp

theorem processMemberMF_column_Y (S : MState) (lo hi : ℚ) (a b c d : String)
    (uid : Nat) (fr : Frame) (hfo : fobjGet S.frame_objects uid = some fr)
    (hc : fr.check_in_SFRSbay "Y" lo hi = true) (htype : fr.frame_type = "column") :
    (fobjGet (processMemberMF S "Y" lo hi a b c d uid).frame_objects uid).map
        (fun f => f.frame_type) = some "SFRS_column"
    ∧ alookup (processMemberMF S "Y" lo hi a b c d uid).sap.sections uid = some c
    ∧ alookup (processMemberMF S "Y" lo hi a b c d uid).sap.angles uid = some 90
    ∧ (hasTag S.index_for "SFRS_columnY" = true →
        uid ∈ indexGet (processMemberMF S "Y" lo hi a b c d uid).index_for
          "SFRS_columnY") := by
  unfold processMemberMF
  split
  · rename_i heq
    rw [hfo] at heq
    cases heq
  · rename_i frame_obj heq
    rw [hfo] at heq
    cases heq
    rw [hc]
    rw [if_pos rfl]
    dsimp only
    rw [if_neg (by decide), if_pos htype]
    refine ⟨?_, ?_, ?_, ?_⟩
    · rw [fobjGet_fmapSet_found _ _ _ _ hfo]
      rfl
    · show alookup ((uid, c) :: _) uid = some c
      rw [alookup_cons, if_pos rfl]
    · show alookup ((uid, (90 : ℚ)) :: _) uid = some 90
      rw [alookup_cons, if_pos rfl]
    · intro ht
      show uid ∈ indexGet (indexAdd (indexAdd S.index_for "SFRS" uid)
        "SFRS_columnY" uid) "SFRS_columnY"
      rw [indexGet_indexAdd_self _ _ _ (by rw [hasTag_indexAdd]; exact ht)]
      simp

theorem processMemberMF_girder_X (S : MState) (lo hi : ℚ) (a b c d : String)
    (uid : Nat) (fr : Frame) (hfo : fobjGet S.frame_objects uid = some fr)
    (hc : fr.check_in_SFRSbay "X" lo hi = true) (htype : fr.frame_type = "girder") :
    (fobjGet (processMemberMF S "X" lo hi a b c d uid).frame_objects uid).map
        (fun f => f.frame_type) = some "SFRS_beam"
    ∧ alookup (processMemberMF S "X" lo hi a b c d uid).sap.sections uid = some b
    ∧ (hasTag S.index_for "SFRS_beamX" = true →
        uid ∈ indexGet (processMemberMF S "X" lo hi a b c d uid).index_for
          "SFRS_beamX") := by
  unfold processMemberMF
  split
  · rename_i heq
    rw [hfo] at heq
    cases heq
  · rename_i frame_obj heq
    rw [hfo] at heq
    cases heq
    rw [hc]
    rw [if_pos rfl]
    dsimp only
    rw [if_pos rfl, if_neg (by rw [htype]; decide), if_pos htype]
    refine ⟨?_, ?_, ?_⟩
    · rw [fobjGet_fmapSet_found _ _ _ _ hfo]
      rfl
    · show alookup ((uid, b) :: _) uid = some b
      rw [alookup_cons, if_pos rfl]
    · intro ht
      show uid ∈ indexGet (indexAdd (indexAdd S.index_for "SFRS" uid)
        "SFRS_beamX" uid) "SFRS_beamX"
      rw [indexGet_indexAdd_self _ _ _ (by rw [hasTag_indexAdd]; exact ht)]
      simp

theorem processMemberMF_beam_Y (S : MState) (lo hi : ℚ) (a b c d : String)
    (uid : Nat) (fr : Frame) (hfo : fobjGet S.frame_objects uid = some fr)
    (hc : fr.check_in_SFRSbay "Y" lo hi = true) (htype : fr.frame_type = "beam") :
    (fobjGet (processMemberMF S "Y" lo hi a b c d uid).frame_objects uid).map
        (fun f => f.frame_type) = some "SFRS_beam"
    ∧ alookup (processMemberMF S "Y" lo hi a b c d uid).sap.sections uid = some d
    ∧ (hasTag S.index_for "SFRS_beamY" = true →
        uid ∈ indexGet (processMemberMF S "Y" lo hi a b c d uid).index_for
          "SFRS_beamY") := by
  unfold processMemberMF
  split
  · rename_i heq
    rw [hfo] at heq
    cases heq
  · rename_i frame_obj heq
    rw [hfo] at heq
    cases heq
    rw [hc]
    rw [if_pos rfl]
    dsimp only
    rw [if_neg (by decide), if_neg (by rw [htype]; decide), if_pos htype]
    refine ⟨?_, ?_, ?_⟩
    · rw [fobjGet_fmapSet_found _ _ _ _ hfo]
      rfl
    · show alookup ((uid, d) :: _) uid = some d
      rw [alookup_cons, if_pos rfl]
    · intro ht
      show uid ∈ indexGet (indexAdd (indexAdd S.index_for "SFRS" uid)
        "SFRS_beamY" uid) "SFRS_beamY"
      rw [indexGet_indexAdd_self _ _ _ (by rw [hasTag_indexAdd]; exact ht)]
      simp

/-- C4: moment-frame classification of a bay descriptor.  Once the
descriptor parses and its grid pair resolves to an ordinate interval and a
direction, (1) the bay run is exactly the fold of the per-member action over
the candidate list; (2) the candidates are exactly the ids in both the
`on <grid>` tag and the floor tag; (3) a member passes the selection test
iff both endpoint ordinates along the bay direction lie in the closed
interval; (4) a candidate failing the test is left completely untouched;
(5) every selected member gets fully fixed end releases; selected columns
become `SFRS_column` with the direction's column section (Y additionally
rotating the local axes by 90 degrees) and selected girders (X) / beams (Y)
become `SFRS_beam` with the direction's beam section, each registered under
its direction-specific SFRS tag. -/
theorem C4_MF_classification (S : MState) (floor_name s gon gf gt : String)
    (mf : MFRow) (lo hi : ℚ) (dir : String)
    (hp : parseSFRS s = Except.ok (gon, gf, gt))
    (hr : resolveBayMF S.x_grids S.y_grids gf gt = Except.ok (lo, hi, dir)) :
    processBayMF S floor_name mf s = Except.ok
      ((bayCandidates S.index_for gon floor_name).foldl
        (fun St uid => processMemberMF St dir lo hi mf.x_column mf.x_beam
          mf.y_column mf.y_beam uid) S)
    ∧ (∀ uid, uid ∈ bayCandidates S.index_for gon floor_name ↔
        uid ∈ indexGet S.index_for ("on " ++ gon) ∧
        uid ∈ indexGet S.index_for floor_name)
    ∧ (∀ (fr : Frame) (l h : ℚ),
        fr.check_in_SFRSbay dir l h = true ↔
          ((l ≤ (if dir = "X" then px fr.end_coords.1 else py fr.end_coords.1) ∧
            (if dir = "X" then px fr.end_coords.1 else py fr.end_coords.1) ≤ h) ∧
           (l ≤ (if dir = "X" then px fr.end_coords.2 else py fr.end_coords.2) ∧
            (if dir = "X" then px fr.end_coords.2 else py fr.end_coords.2) ≤ h)))
    ∧ (∀ (T : MState) (uid : Nat) (fr : Frame),
        fobjGet T.frame_objects uid = some fr →
        fr.check_in_SFRSbay dir lo hi = false →
        processMemberMF T dir lo hi mf.x_column mf.x_beam mf.y_column
          mf.y_beam uid = T)
    ∧ (∀ (T : MState) (uid : Nat) (fr : Frame),
        fobjGet T.frame_objects uid = some fr →
        fr.check_in_SFRSbay dir lo hi = true →
        alookup (processMemberMF T dir lo hi mf.x_column mf.x_beam mf.y_column
          mf.y_beam uid).sap.releases uid = some (fixedRel, fixedRel))
    ∧ (dir = "X" → ∀ (T : MState) (uid : Nat) (fr : Frame),
        fobjGet T.frame_objects uid = some fr →
        fr.check_in_SFRSbay "X" lo hi = true → fr.frame_type = "column" →
        (fobjGet (processMemberMF T "X" lo hi mf.x_column mf.x_beam mf.y_column
            mf.y_beam uid).frame_objects uid).map (fun f => f.frame_type)
          = some "SFRS_column"
        ∧ alookup (processMemberMF T "X" lo hi mf.x_column mf.x_beam mf.y_column
            mf.y_beam uid).sap.sections uid = some mf.x_column
        ∧ (hasTag T.index_for "SFRS_columnX" = true →
            uid ∈ indexGet (processMemberMF T "X" lo hi mf.x_column mf.x_beam
              mf.y_column mf.y_beam uid).index_for "SFRS_columnX"))
    ∧ (dir = "Y" → ∀ (T : MState) (uid : Nat) (fr : Frame),
        fobjGet T.frame_objects uid = some fr →
        fr.check_in_SFRSbay "Y" lo hi = true → fr.frame_type = "column" →
        (fobjGet (processMemberMF T "Y" lo hi mf.x_column mf.x_beam mf.y_column
            mf.y_beam uid).frame_objects uid).map (fun f => f.frame_type)
          = some "SFRS_column"
        ∧ alookup (processMemberMF T "Y" lo hi mf.x_column mf.x_beam mf.y_column
            mf.y_beam uid).sap.sections uid = some mf.y_column
        ∧ alookup (processMemberMF T "Y" lo hi mf.x_column mf.x_beam mf.y_column
            mf.y_beam uid).sap.angles uid = some 90
        ∧ (hasTag T.index_for "SFRS_columnY" = true →
            uid ∈ indexGet (processMemberMF T "Y" lo hi mf.x_column mf.x_beam
              mf.y_column mf.y_beam uid).index_for "SFRS_columnY"))
    ∧ (dir = "X" → ∀ (T : MState) (uid : Nat) (fr : Frame),
        fobjGet T.frame_objects uid = some fr →
        fr.check_in_SFRSbay "X" lo hi = true → fr.frame_type = "girder" →
        (fobjGet (processMemberMF T "X" lo hi mf.x_column mf.x_beam mf.y_column
            mf.y_beam uid).frame_objects uid).map (fun f => f.frame_type)
          = some "SFRS_beam"
        ∧ alookup (processMemberMF T "X" lo hi mf.x_column mf.x_beam mf.y_column
            mf.y_beam uid).sap.sections uid = some mf.x_beam
        ∧ (hasTag T.index_for "SFRS_beamX" = true →
            uid ∈ indexGet (processMemberMF T "X" lo hi mf.x_column mf.x_beam
              mf.y_column mf.y_beam uid).index_for "SFRS_beamX"))
    ∧ (dir = "Y" → ∀ (T : MState) (uid : Nat) (fr : Frame),
        fobjGet T.frame_objects uid = some fr →
        fr.check_in_SFRSbay "Y" lo hi = true → fr.frame_type = "beam" →
        (fobjGet (processMemberMF T "Y" lo hi mf.x_column mf.x_beam mf.y_column
            mf.y_beam uid).frame_objects uid).map (fun f => f.frame_type)
          = some "SFRS_beam"
        ∧ alookup (processMemberMF T "Y" lo hi mf.x_column mf.x_beam mf.y_column
            mf.y_beam uid).sap.sections uid = some mf.y_beam
        ∧ (hasTag T.index_for "SFRS_beamY" = true →
            uid ∈ indexGet (processMemberMF T "Y" lo hi mf.x_column mf.x_beam
              mf.y_column mf.y_beam uid).index_for "SFRS_beamY")) := by
  refine ⟨?_, ?_, ?_, ?_, ?_, ?_, ?_, ?_, ?_⟩
  · unfold processBayMF
    rw [hp, exbind_ok, hr, exbind_ok]
  · intro uid
    unfold bayCandidates
    simp [List.mem_filter]
  · intro fr l h
    unfold Frame.check_in_SFRSbay
    by_cases hd : dir = "X" <;> simp [hd, and_assoc]
  · intro T uid fr hfo hc
    exact processMemberMF_not_selected T dir lo hi mf.x_column mf.x_beam
      mf.y_column mf.y_beam uid fr hfo hc
  · intro T uid fr hfo hc
    exact (processMemberMF_selected_common T dir lo hi mf.x_column mf.x_beam
      mf.y_column mf.y_beam uid fr hfo hc).1
  · intro hd T uid fr hfo hc htype
    exact processMemberMF_column_X T lo hi mf.x_column mf.x_beam mf.y_column
      mf.y_beam uid fr hfo hc htype
  · intro hd T uid fr hfo hc htype
    exact processMemberMF_column_Y T lo hi mf.x_column mf.x_beam mf.y_column
      mf.y_beam uid fr hfo hc htype
  · intro hd T uid fr hfo hc htype
    exact processMemberMF_girder_X T lo hi mf.x_column mf.x_beam mf.y_column
      mf.y_beam uid fr hfo hc htype
  · intro hd T uid fr hfo hc htype
    exact processMemberMF_beam_Y T lo hi mf.x_column mf.x_beam mf.y_column
      mf.y_beam uid fr hfo hc htype

set_option maxRecDepth 8000 in
/-- Witness for C4 at the example state: descriptor `2;A-B` on floor
`Roof` parses to on-grid `2` and bay grids `A`, `B`, resolves to the
interval `[0, 120]` in direction `X`, and the bay run equals the candidate
fold. -/
theorem C4_witness :
    parseSFRS "2;A-B" = Except.ok ("2", "A", "B")
    ∧ resolveBayMF egS2.x_grids egS2.y_grids "A" "B" = Except.ok (0, 120, "X")
    ∧ processBayMF egS2 "Roof" egMF "2;A-B" = Except.ok
        ((bayCandidates egS2.index_for "2" "Roof").foldl
          (fun St uid => processMemberMF St "X" 0 120 egMF.x_column egMF.x_beam
            egMF.y_column egMF.y_beam uid) egS2) :=
  ⟨by with_unfolding_all rfl, by with_unfolding_all rfl,
   (C4_MF_classification egS2 "Roof" "2;A-B" "2" "A" "B" egMF 0 120 "X"
     (by with_unfolding_all rfl) (by with_unfolding_all rfl)).1⟩

end ModelGen
